import Mathlib

/-!
Verification of the session-lifecycle core of this repository:

* `SessionStateManager` (apps/core/backend/state_manager/state_manager.py,
  models in apps/core/state_manager/models.py): the manifest state machine
  and its persistence contract.
* The filesystem-to-index reconciler
  (apps/core/backend/src/database/sync.py, crud in
  apps/core/session_db/crud.py).
* `SyncTaskPool` (apps/core/backend/task_pool/task_pool.py).

Conventions of the embedding:

* Timestamps (`datetime.now(timezone.utc)` instants) are abstract integers;
  each operation that calls `datetime.now` receives the instant as an
  explicit argument.  JSON serialisation of a timestamp is modelled as a
  JSON number (the Python code writes an ISO string; the encoding of an
  instant is a bijective library detail, so an abstract injective encoding
  is used).
* Python `raise` is modelled with `Except`; every modelled operation of the
  source raises before mutating, so an error result carries the unchanged
  world.
* Dynamic JSON values (the reconciler works on raw parsed JSON) are
  modelled by the inductive type `JVal`.
-/

/-- A parsed JSON value, as produced by Python `json.loads`. -/
inductive JVal where
  | null
  | bool (b : Bool)
  | num (n : Int)
  | str (s : String)
  | arr (elems : List JVal)
  | obj (fields : List (String × JVal))
deriving Repr

namespace JVal

/-- Python `k in d` for a dict `d`. Non-dict values contain no keys. -/
def hasKey : JVal → String → Bool
  | .obj fs, k => fs.any (fun p => p.1 == k)
  | _, _ => false

/-- Python `d.get(k, default)`: the first binding of `k`, or the default. -/
def getD : JVal → String → JVal → JVal
  | .obj fs, k, d =>
    match fs.lookup k with
    | some v => v
    | none => d
  | _, _, d => d

/-- Python `d.get(k)` (default `None`). -/
def get (v : JVal) (k : String) : JVal := v.getD k .null

/-- Key lookup distinguishing a missing key from an explicit `null`. -/
def lookup : JVal → String → Option JVal
  | .obj fs, k => fs.lookup k
  | _, _ => none

/-- Python truthiness of a JSON value (`None`, `False`, `0`, `""`, `[]`,
`{}` are falsy). -/
def isTruthy : JVal → Bool
  | .null => false
  | .bool b => b
  | .num n => n != 0
  | .str s => s != ""
  | .arr xs => !xs.isEmpty
  | .obj fs => !fs.isEmpty

/-- Python `a or b`. -/
def orElse (a b : JVal) : JVal := if a.isTruthy then a else b

/-- Python `len` totalised: length of a sequence, `0` on values where the
Python call would raise `TypeError` (that raise is surfaced separately
where it matters). -/
def pyLen : JVal → Nat
  | .arr xs => xs.length
  | .obj fs => fs.length
  | .str s => s.length
  | _ => 0

/-- Replace or add one key of an object; identity on non-objects. -/
def setKey : JVal → String → JVal → JVal
  | .obj fs, k, v =>
    if fs.any (fun p => p.1 == k) then
      .obj (fs.map (fun p => if p.1 == k then (k, v) else p))
    else
      .obj (fs ++ [(k, v)])
  | other, _, _ => other

end JVal

/-- Abstract UTC instant (argument to every modelled `datetime.now` call). -/
abbrev Timestamp := Int

/-! ### Enums of apps/core/state_manager/models.py -/

/-- `Phase` enum: valid session phases. -/
inductive Phase where
  | spec
  | plan
  | build
  | docs
  | complete
deriving Repr, DecidableEq

/-- The `.value` string of a `Phase` member. -/
def Phase.value : Phase → String
  | .spec => "spec"
  | .plan => "plan"
  | .build => "build"
  | .docs => "docs"
  | .complete => "complete"

/-- `Phase(s)` on a string, as `Option`. -/
def Phase.fromValue : String → Option Phase
  | "spec" => some .spec
  | "plan" => some .plan
  | "build" => some .build
  | "docs" => some .docs
  | "complete" => some .complete
  | _ => none

/-- `Status` enum: session execution status. -/
inductive Status where
  | active
  | paused
  | complete
  | failed
deriving Repr, DecidableEq

/-- The `.value` string of a `Status` member. -/
def Status.value : Status → String
  | .active => "active"
  | .paused => "paused"
  | .complete => "complete"
  | .failed => "failed"

/-- `Status(s)` on a string, as `Option`. -/
def Status.fromValue : String → Option Status
  | "active" => some .active
  | "paused" => some .paused
  | "complete" => some .complete
  | "failed" => some .failed
  | _ => none

/-- `SessionType` enum. -/
inductive SessionType where
  | full
  | quick
  | research
deriving Repr, DecidableEq

/-- The `.value` string of a `SessionType` member. -/
def SessionType.value : SessionType → String
  | .full => "full"
  | .quick => "quick"
  | .research => "research"

/-- `SessionType(s)` on a string, as `Option`. -/
def SessionType.fromValue : String → Option SessionType
  | "full" => some .full
  | "quick" => some .quick
  | "research" => some .research
  | _ => none

/-! ### Nested models of apps/core/state_manager/models.py -/

/-- `PhaseHistory`: start/complete timestamps per phase, all optional. -/
structure PhaseHistory where
  spec_started_at : Option Timestamp := none
  spec_completed_at : Option Timestamp := none
  plan_started_at : Option Timestamp := none
  plan_completed_at : Option Timestamp := none
  build_started_at : Option Timestamp := none
  build_completed_at : Option Timestamp := none
  docs_started_at : Option Timestamp := none
  docs_completed_at : Option Timestamp := none
deriving Repr, DecidableEq

/-- `setattr(ph, f"{p.value}_completed_at", t)`.  `complete` has no such
field; the only call site guards it behind `VALID_TRANSITIONS`, whose
`complete` entry is empty, so that case is unreachable there. -/
def PhaseHistory.setCompletedAt (ph : PhaseHistory) (p : Phase) (t : Timestamp) : PhaseHistory :=
  match p with
  | .spec => { ph with spec_completed_at := some t }
  | .plan => { ph with plan_completed_at := some t }
  | .build => { ph with build_completed_at := some t }
  | .docs => { ph with docs_completed_at := some t }
  | .complete => ph

/-- `setattr(ph, f"{p.value}_started_at", t)`; the call site excludes
`complete`. -/
def PhaseHistory.setStartedAt (ph : PhaseHistory) (p : Phase) (t : Timestamp) : PhaseHistory :=
  match p with
  | .spec => { ph with spec_started_at := some t }
  | .plan => { ph with plan_started_at := some t }
  | .build => { ph with build_started_at := some t }
  | .docs => { ph with docs_started_at := some t }
  | .complete => ph

/-- Read accessor for `<p>_completed_at` (`complete` has no such field). -/
def PhaseHistory.completedAt (ph : PhaseHistory) : Phase → Option Timestamp
  | .spec => ph.spec_completed_at
  | .plan => ph.plan_completed_at
  | .build => ph.build_completed_at
  | .docs => ph.docs_completed_at
  | .complete => none

/-- Read accessor for `<p>_started_at` (`complete` has no such field). -/
def PhaseHistory.startedAt (ph : PhaseHistory) : Phase → Option Timestamp
  | .spec => ph.spec_started_at
  | .plan => ph.plan_started_at
  | .build => ph.build_started_at
  | .docs => ph.docs_started_at
  | .complete => none

/-- `BuildProgress`: checkpoint progress during the build phase. -/
structure BuildProgress where
  checkpoints_total : Option Int := none
  checkpoints_completed : List Int := []
  current_checkpoint : Option Int := none
deriving Repr, DecidableEq

/-- `GitContext`: git branch and worktree context. -/
structure GitContext where
  branch : Option String := none
  worktree : Option String := none
  base_branch : Option String := none
deriving Repr, DecidableEq

/-- `Commit`: one git commit made during the session. -/
structure Commit where
  sha : String
  message : String
  checkpoint : Option Int := none
  created_at : Timestamp
deriving Repr, DecidableEq

/-- `Artifacts`: relative paths of the session artifacts. -/
structure Artifacts where
  spec : String := "spec.md"
  plan : String := "plan.json"
  plan_readable : String := "plan.md"
deriving Repr, DecidableEq

/-- `SessionState`: the root model of the state.json v2 schema. -/
structure SessionState where
  session_id : String
  topic : String
  description : Option String := none
  session_type : SessionType := .full
  created_at : Timestamp
  updated_at : Timestamp
  current_phase : Phase := .spec
  status : Status := .active
  phase_history : PhaseHistory := {}
  build_progress : BuildProgress := {}
  git : GitContext := {}
  commits : List Commit := []
  artifacts : Artifacts := {}
deriving Repr, DecidableEq

/-! ### Serialisation (`model_dump(mode="json")`) and validation
(`SessionState.model_validate`) -/

/-- Serialise an optional timestamp (`None` or an instant). -/
def timeToJson : Option Timestamp → JVal
  | none => .null
  | some t => .num t

/-- Serialise an optional string. -/
def optStrToJson : Option String → JVal
  | none => .null
  | some s => .str s

/-- Serialise an optional integer. -/
def optIntToJson : Option Int → JVal
  | none => .null
  | some n => .num n

/-- `model_dump` of `PhaseHistory`. -/
def PhaseHistory.toJson (ph : PhaseHistory) : JVal :=
  .obj
    [("spec_started_at", timeToJson ph.spec_started_at),
     ("spec_completed_at", timeToJson ph.spec_completed_at),
     ("plan_started_at", timeToJson ph.plan_started_at),
     ("plan_completed_at", timeToJson ph.plan_completed_at),
     ("build_started_at", timeToJson ph.build_started_at),
     ("build_completed_at", timeToJson ph.build_completed_at),
     ("docs_started_at", timeToJson ph.docs_started_at),
     ("docs_completed_at", timeToJson ph.docs_completed_at)]

/-- `model_dump` of `BuildProgress`. -/
def BuildProgress.toJson (bp : BuildProgress) : JVal :=
  .obj
    [("checkpoints_total", optIntToJson bp.checkpoints_total),
     ("checkpoints_completed", .arr (bp.checkpoints_completed.map JVal.num)),
     ("current_checkpoint", optIntToJson bp.current_checkpoint)]

/-- `model_dump` of `GitContext`. -/
def GitContext.toJson (g : GitContext) : JVal :=
  .obj
    [("branch", optStrToJson g.branch),
     ("worktree", optStrToJson g.worktree),
     ("base_branch", optStrToJson g.base_branch)]

/-- `model_dump` of `Commit`. -/
def Commit.toJson (c : Commit) : JVal :=
  .obj
    [("sha", .str c.sha),
     ("message", .str c.message),
     ("checkpoint", optIntToJson c.checkpoint),
     ("created_at", timeToJson (some c.created_at))]

/-- `model_dump` of `Artifacts`. -/
def Artifacts.toJson (a : Artifacts) : JVal :=
  .obj
    [("spec", .str a.spec),
     ("plan", .str a.plan),
     ("plan_readable", .str a.plan_readable)]

/-- `model_dump(mode="json")` of the root model (`use_enum_values` makes
enums plain strings on the wire). -/
def SessionState.toJson (s : SessionState) : JVal :=
  .obj
    [("session_id", .str s.session_id),
     ("topic", .str s.topic),
     ("description", optStrToJson s.description),
     ("session_type", .str s.session_type.value),
     ("created_at", timeToJson (some s.created_at)),
     ("updated_at", timeToJson (some s.updated_at)),
     ("current_phase", .str s.current_phase.value),
     ("status", .str s.status.value),
     ("phase_history", s.phase_history.toJson),
     ("build_progress", s.build_progress.toJson),
     ("git", s.git.toJson),
     ("commits", .arr (s.commits.map Commit.toJson)),
     ("artifacts", s.artifacts.toJson)]

/-- Validate a required string field. -/
def parseStr : Option JVal → Option String
  | some (.str s) => some s
  | _ => none

/-- Validate an `Optional[str]` field (missing or `null` become `None`). -/
def parseOptStr : Option JVal → Option (Option String)
  | none => some none
  | some .null => some none
  | some (.str s) => some (some s)
  | _ => none

/-- Validate a required datetime field. -/
def parseTime : Option JVal → Option Timestamp
  | some (.num n) => some n
  | _ => none

/-- Validate an `Optional[datetime]` field. -/
def parseOptTime : Option JVal → Option (Option Timestamp)
  | none => some none
  | some .null => some none
  | some (.num n) => some (some n)
  | _ => none

/-- Validate an `Optional[int]` field. -/
def parseOptInt : Option JVal → Option (Option Int)
  | none => some none
  | some .null => some none
  | some (.num n) => some (some n)
  | _ => none

/-- All-or-nothing elementwise validation of a JSON array. -/
def optionMapM {α β : Type} (f : α → Option β) : List α → Option (List β)
  | [] => some []
  | x :: xs => do
    let y ← f x
    let ys ← optionMapM f xs
    some (y :: ys)

/-- Validate one element of a `list[int]` field. -/
def parseIntElem : JVal → Option Int
  | .num n => some n
  | _ => none

/-- Validate a `list[int]` field with default `[]`. -/
def parseIntList : Option JVal → Option (List Int)
  | none => some []
  | some (.arr xs) => optionMapM parseIntElem xs
  | _ => none

/-- Validate a string field with a default. -/
def parseStrD (d : String) : Option JVal → Option String
  | none => some d
  | some (.str s) => some s
  | _ => none

/-- Validate `PhaseHistory` (missing sub-model gets the default factory). -/
def PhaseHistory.fromJson (v : Option JVal) : Option PhaseHistory :=
  match v with
  | none => some {}
  | some j =>
    match j with
    | .obj _ => do
      let ss ← parseOptTime (j.lookup "spec_started_at")
      let sc ← parseOptTime (j.lookup "spec_completed_at")
      let ps ← parseOptTime (j.lookup "plan_started_at")
      let pc ← parseOptTime (j.lookup "plan_completed_at")
      let bs ← parseOptTime (j.lookup "build_started_at")
      let bc ← parseOptTime (j.lookup "build_completed_at")
      let ds ← parseOptTime (j.lookup "docs_started_at")
      let dc ← parseOptTime (j.lookup "docs_completed_at")
      some
        { spec_started_at := ss, spec_completed_at := sc,
          plan_started_at := ps, plan_completed_at := pc,
          build_started_at := bs, build_completed_at := bc,
          docs_started_at := ds, docs_completed_at := dc }
    | _ => none

/-- Validate `BuildProgress`. -/
def BuildProgress.fromJson (v : Option JVal) : Option BuildProgress :=
  match v with
  | none => some {}
  | some j =>
    match j with
    | .obj _ => do
      let tot ← parseOptInt (j.lookup "checkpoints_total")
      let comp ← parseIntList (j.lookup "checkpoints_completed")
      let cur ← parseOptInt (j.lookup "current_checkpoint")
      some
        { checkpoints_total := tot, checkpoints_completed := comp,
          current_checkpoint := cur }
    | _ => none

/-- Validate `GitContext`. -/
def GitContext.fromJson (v : Option JVal) : Option GitContext :=
  match v with
  | none => some {}
  | some j =>
    match j with
    | .obj _ => do
      let b ← parseOptStr (j.lookup "branch")
      let w ← parseOptStr (j.lookup "worktree")
      let bb ← parseOptStr (j.lookup "base_branch")
      some { branch := b, worktree := w, base_branch := bb }
    | _ => none

/-- Validate one `Commit`. -/
def Commit.fromJson (j : JVal) : Option Commit :=
  match j with
  | .obj _ => do
    let sha ← parseStr (j.lookup "sha")
    let msg ← parseStr (j.lookup "message")
    let cp ← parseOptInt (j.lookup "checkpoint")
    let ca ← parseTime (j.lookup "created_at")
    some { sha := sha, message := msg, checkpoint := cp, created_at := ca }
  | _ => none

/-- Validate the `commits` list. -/
def parseCommits : Option JVal → Option (List Commit)
  | none => some []
  | some (.arr xs) => optionMapM Commit.fromJson xs
  | _ => none

/-- Validate `Artifacts`. -/
def Artifacts.fromJson (v : Option JVal) : Option Artifacts :=
  match v with
  | none => some {}
  | some j =>
    match j with
    | .obj _ => do
      let sp ← parseStrD "spec.md" (j.lookup "spec")
      let pl ← parseStrD "plan.json" (j.lookup "plan")
      let pr ← parseStrD "plan.md" (j.lookup "plan_readable")
      some { spec := sp, plan := pl, plan_readable := pr }
    | _ => none

/-- Validate an enum-valued field with a default member. -/
def parseEnum {α : Type} (fromValue : String → Option α) (d : α) :
    Option JVal → Option α
  | none => some d
  | some (.str s) => fromValue s
  | _ => none

/-- `SessionState.model_validate` on parsed JSON. -/
def SessionState.fromJson (j : JVal) : Option SessionState :=
  match j with
  | .obj _ => do
    let sid ← parseStr (j.lookup "session_id")
    let topic ← parseStr (j.lookup "topic")
    let desc ← parseOptStr (j.lookup "description")
    let stype ← parseEnum SessionType.fromValue .full (j.lookup "session_type")
    let ca ← parseTime (j.lookup "created_at")
    let ua ← parseTime (j.lookup "updated_at")
    let phase ← parseEnum Phase.fromValue .spec (j.lookup "current_phase")
    let status ← parseEnum Status.fromValue .active (j.lookup "status")
    let ph ← PhaseHistory.fromJson (j.lookup "phase_history")
    let bp ← BuildProgress.fromJson (j.lookup "build_progress")
    let git ← GitContext.fromJson (j.lookup "git")
    let commits ← parseCommits (j.lookup "commits")
    let arts ← Artifacts.fromJson (j.lookup "artifacts")
    some
      { session_id := sid, topic := topic, description := desc,
        session_type := stype, created_at := ca, updated_at := ua,
        current_phase := phase, status := status, phase_history := ph,
        build_progress := bp, git := git, commits := commits,
        artifacts := arts }
  | _ => none

/-! ### SessionStateManager (apps/core/backend/state_manager/state_manager.py)

The manager is modelled together with the file it owns: `mem` is the
`_state` attribute, `disk` the JSON content of `state.json` (`none` when
the file does not exist), `tmp` the content of `state.json.tmp` (`none`
when absent; a successful save renames it away). -/

/-- Typed errors raised by the state manager. -/
inductive StateError where
  | invalidPhaseTransition (from_phase to_phase : String)
  | sessionNotFound
  | stateValidation
  | valueError (msg : String)
  | runtimeError (msg : String)
deriving Repr, DecidableEq

/-- One manager instance together with its session directory content. -/
structure ManagerWorld where
  mem : Option SessionState := none
  disk : Option JVal := none
  tmp : Option JVal := none

/-- `VALID_TRANSITIONS`: current phase to allowed next phases. -/
def VALID_TRANSITIONS : Phase → List Phase
  | .spec => [.plan]
  | .plan => [.build]
  | .build => [.docs, .complete]
  | .docs => [.complete]
  | .complete => []

/-- `_validate_transition`. -/
def validateTransition (from_phase to_phase : Phase) : Bool :=
  (VALID_TRANSITIONS from_phase).contains to_phase

namespace ManagerWorld

/-- The `state` property: return `_state`, loading from disk when it is
still unset (`load` raises `SessionNotFoundError` on a missing file and
`StateValidationError` on a schema failure, and caches the result). -/
def getState (w : ManagerWorld) : Except StateError SessionState × ManagerWorld :=
  match w.mem with
  | some s => (.ok s, w)
  | none =>
    match w.disk with
    | none => (.error .sessionNotFound, w)
    | some j =>
      match SessionState.fromJson j with
      | some s => (.ok s, { w with mem := some s })
      | none => (.error .stateValidation, w)

/-- `load()` on its own. -/
def load (w : ManagerWorld) : Except StateError SessionState × ManagerWorld :=
  match w.disk with
  | none => (.error .sessionNotFound, w)
  | some j =>
    match SessionState.fromJson j with
    | some s => (.ok s, { w with mem := some s })
    | none => (.error .stateValidation, w)

/-- `save()`: requires a loaded state, refreshes `updated_at` with a fresh
instant, serialises to `state.json.tmp` and renames it over `state.json`.
`saveNow` is the `datetime.now` instant captured inside `save`. -/
def save (w : ManagerWorld) (saveNow : Timestamp) : Except StateError Unit × ManagerWorld :=
  match w.mem with
  | none => (.error (.runtimeError "No state loaded. Call load() first."), w)
  | some s =>
    let s2 := { s with updated_at := saveNow }
    (.ok (), { mem := some s2, disk := some s2.toJson, tmp := none })

/-- `transition_to_phase(new_phase)`.  `now` is the instant captured once
for both phase-history fields; `saveNow` the instant captured inside the
nested `save()` call. -/
def transitionToPhase (w : ManagerWorld) (new_phase : Phase) (now saveNow : Timestamp) :
    Except StateError Unit × ManagerWorld :=
  match w.getState with
  | (.error e, w1) => (.error e, w1)
  | (.ok s, w1) =>
    if validateTransition s.current_phase new_phase then
      let ph := s.phase_history.setCompletedAt s.current_phase now
      let ph :=
        if new_phase ≠ Phase.complete then ph.setStartedAt new_phase now else ph
      let s2 := { s with phase_history := ph, current_phase := new_phase }
      ManagerWorld.save { w1 with mem := some s2 } saveNow
    else
      (.error (.invalidPhaseTransition s.current_phase.value new_phase.value), w1)

/-- `init_build_progress(checkpoints_total)`. -/
def initBuildProgress (w : ManagerWorld) (checkpoints_total : Int) (saveNow : Timestamp) :
    Except StateError Unit × ManagerWorld :=
  if checkpoints_total < 1 then
    (.error (.valueError "checkpoints_total must be at least 1"), w)
  else
    match w.getState with
    | (.error e, w1) => (.error e, w1)
    | (.ok s, w1) =>
      let s2 :=
        { s with
          build_progress :=
            { checkpoints_total := some checkpoints_total,
              checkpoints_completed := [],
              current_checkpoint := some 1 } }
      ManagerWorld.save { w1 with mem := some s2 } saveNow

/-- `start_checkpoint(checkpoint_id)`. -/
def startCheckpoint (w : ManagerWorld) (checkpoint_id : Int) (saveNow : Timestamp) :
    Except StateError Unit × ManagerWorld :=
  match w.getState with
  | (.error e, w1) => (.error e, w1)
  | (.ok s, w1) =>
    match s.build_progress.checkpoints_total with
    | none =>
      (.error (.valueError "build_progress not initialized. Call init_build_progress first."), w1)
    | some total =>
      if checkpoint_id < 1 ∨ checkpoint_id > total then
        (.error (.valueError s!"checkpoint_id must be between 1 and {total}"), w1)
      else
        let s2 :=
          { s with
            build_progress :=
              { s.build_progress with current_checkpoint := some checkpoint_id } }
        ManagerWorld.save { w1 with mem := some s2 } saveNow

/-- `complete_checkpoint(checkpoint_id)`: `completed.append(id)` followed by
`completed.sort()` is the ascending sort of the extended list. -/
def completeCheckpoint (w : ManagerWorld) (checkpoint_id : Int) (saveNow : Timestamp) :
    Except StateError Unit × ManagerWorld :=
  match w.getState with
  | (.error e, w1) => (.error e, w1)
  | (.ok s, w1) =>
    match s.build_progress.checkpoints_total with
    | none =>
      (.error (.valueError "build_progress not initialized. Call init_build_progress first."), w1)
    | some total =>
      if checkpoint_id < 1 ∨ checkpoint_id > total then
        (.error (.valueError s!"checkpoint_id must be between 1 and {total}"), w1)
      else if checkpoint_id ∈ s.build_progress.checkpoints_completed then
        (.error (.valueError s!"Checkpoint {checkpoint_id} is already completed"), w1)
      else
        let completed2 :=
          List.insertionSort (fun a b => a ≤ b)
            (s.build_progress.checkpoints_completed ++ [checkpoint_id])
        let cur : Option Int :=
          if checkpoint_id < total then some (checkpoint_id + 1) else none
        let s2 :=
          { s with
            build_progress :=
              { s.build_progress with
                checkpoints_completed := completed2,
                current_checkpoint := cur } }
        ManagerWorld.save { w1 with mem := some s2 } saveNow

/-- `add_commit(sha, message, checkpoint)`; `now` is the commit timestamp
instant, `saveNow` the one captured inside `save()`. -/
def addCommit (w : ManagerWorld) (sha message : String) (checkpoint : Option Int)
    (now saveNow : Timestamp) : Except StateError Unit × ManagerWorld :=
  match w.getState with
  | (.error e, w1) => (.error e, w1)
  | (.ok s, w1) =>
    let c : Commit := { sha := sha, message := message, checkpoint := checkpoint, created_at := now }
    let s2 := { s with commits := s.commits ++ [c] }
    ManagerWorld.save { w1 with mem := some s2 } saveNow

/-- `set_status(status)`. -/
def setStatus (w : ManagerWorld) (status : Status) (saveNow : Timestamp) :
    Except StateError Unit × ManagerWorld :=
  match w.getState with
  | (.error e, w1) => (.error e, w1)
  | (.ok s, w1) =>
    ManagerWorld.save { w1 with mem := some { s with status := status } } saveNow

/-- `set_git_branch(branch)`. -/
def setGitBranch (w : ManagerWorld) (branch : String) (saveNow : Timestamp) :
    Except StateError Unit × ManagerWorld :=
  match w.getState with
  | (.error e, w1) => (.error e, w1)
  | (.ok s, w1) =>
    ManagerWorld.save
      { w1 with mem := some { s with git := { s.git with branch := some branch } } } saveNow

/-- `set_git_worktree(worktree)`. -/
def setGitWorktree (w : ManagerWorld) (worktree : Option String) (saveNow : Timestamp) :
    Except StateError Unit × ManagerWorld :=
  match w.getState with
  | (.error e, w1) => (.error e, w1)
  | (.ok s, w1) =>
    ManagerWorld.save
      { w1 with mem := some { s with git := { s.git with worktree := worktree } } } saveNow

end ManagerWorld

/-! ### Helper lemmas about phase history updates -/

lemma completedAt_setCompletedAt (ph : PhaseHistory) (p : Phase) (t : Timestamp)
    (hp : p ≠ Phase.complete) :
    (ph.setCompletedAt p t).completedAt p = some t := by
  cases p <;>
    simp [PhaseHistory.setCompletedAt, PhaseHistory.completedAt] at hp ⊢

lemma completedAt_setStartedAt (ph : PhaseHistory) (p q : Phase) (t : Timestamp) :
    (ph.setStartedAt q t).completedAt p = ph.completedAt p := by
  cases p <;> cases q <;>
    simp [PhaseHistory.setStartedAt, PhaseHistory.completedAt]

lemma startedAt_setStartedAt (ph : PhaseHistory) (p : Phase) (t : Timestamp)
    (hp : p ≠ Phase.complete) :
    (ph.setStartedAt p t).startedAt p = some t := by
  cases p <;>
    simp [PhaseHistory.setStartedAt, PhaseHistory.startedAt] at hp ⊢

/-- The five allowed transitions, exactly as the specification lists them. -/
def allowedPhasePairs : List (Phase × Phase) :=
  [(.spec, .plan), (.plan, .build), (.build, .docs), (.build, .complete),
   (.docs, .complete)]

lemma validateTransition_not_from_complete (tgt : Phase)
    (h : validateTransition Phase.complete tgt = true) : False := by
  simp [validateTransition, VALID_TRANSITIONS] at h

/-- C1: `transition_to_phase(tgt)` succeeds on exactly the five listed pairs;
on success it sets `current_phase`, writes both phase-history timestamps
from the single captured instant and persists; otherwise it raises
`InvalidPhaseTransitionError(from, tgt)` leaving memory and disk unchanged. -/
theorem transition_to_phase_correct (w : ManagerWorld) (s : SessionState) (tgt : Phase)
    (now saveNow : Timestamp) (hmem : w.mem = some s) :
    (validateTransition s.current_phase tgt = true ↔
      (s.current_phase, tgt) ∈ allowedPhasePairs) ∧
    (validateTransition s.current_phase tgt = true →
      ∃ s2,
        w.transitionToPhase tgt now saveNow =
          (.ok (), { mem := some s2, disk := some s2.toJson, tmp := none }) ∧
        s2.current_phase = tgt ∧
        s2.phase_history.completedAt s.current_phase = some now ∧
        (tgt ≠ Phase.complete → s2.phase_history.startedAt tgt = some now)) ∧
    (validateTransition s.current_phase tgt = false →
      w.transitionToPhase tgt now saveNow =
        (.error (.invalidPhaseTransition s.current_phase.value tgt.value), w)) := by
  have hget : w.getState = (.ok s, w) := by
    simp [ManagerWorld.getState, hmem]
  refine ⟨?_, ?_, ?_⟩
  · cases h : s.current_phase <;> cases tgt <;> decide
  · intro hv
    have hne : s.current_phase ≠ Phase.complete := by
      intro hc
      rw [hc] at hv
      exact validateTransition_not_from_complete tgt hv
    refine
      ⟨{ s with
          phase_history :=
            if tgt ≠ Phase.complete then
              (s.phase_history.setCompletedAt s.current_phase now).setStartedAt tgt now
            else s.phase_history.setCompletedAt s.current_phase now,
          current_phase := tgt, updated_at := saveNow }, ?_, rfl, ?_, ?_⟩
    · simp only [ManagerWorld.transitionToPhase, hget, hv, if_true,
        ManagerWorld.save]
    · by_cases hto : tgt = Phase.complete
      · simp only [hto, ne_eq, not_true_eq_false, if_false]
        exact completedAt_setCompletedAt _ _ _ hne
      · simp only [ne_eq, hto, not_false_eq_true, if_true]
        rw [completedAt_setStartedAt]
        exact completedAt_setCompletedAt _ _ _ hne
    · intro hto
      simp only [ne_eq, hto, not_false_eq_true, if_true]
      exact startedAt_setStartedAt _ _ _ hto
  · intro hv
    simp only [ManagerWorld.transitionToPhase, hget, hv, Bool.false_eq_true,
      if_false]

/-- Witness for C1: from a concrete `spec` manifest, `spec → plan` is
allowed, updates both timestamps to the captured instant, and persists. -/
theorem transition_to_phase_correct_witness :
    ∃ s2,
      (ManagerWorld.transitionToPhase
          { mem := some { session_id := "s1", topic := "t", created_at := 0, updated_at := 0 },
            disk := none, tmp := none }
          Phase.plan 5 7) =
        (.ok (), { mem := some s2, disk := some s2.toJson, tmp := none }) ∧
      s2.current_phase = Phase.plan ∧
      s2.phase_history.completedAt Phase.spec = some 5 ∧
      (Phase.plan ≠ Phase.complete → s2.phase_history.startedAt Phase.plan = some 5) := by
  have h :=
    transition_to_phase_correct
      { mem := some { session_id := "s1", topic := "t", created_at := 0, updated_at := 0 },
        disk := none, tmp := none }
      { session_id := "s1", topic := "t", created_at := 0, updated_at := 0 }
      Phase.plan 5 7 rfl
  exact h.2.1 (by decide)

/-- C10: calling `save()` before any state has been loaded raises
`RuntimeError` and leaves the whole world (state.json and the temp file)
untouched. -/
theorem save_before_load_raises (w : ManagerWorld) (saveNow : Timestamp)
    (h : w.mem = none) :
    w.save saveNow =
      (.error (.runtimeError "No state loaded. Call load() first."), w) := by
  simp [ManagerWorld.save, h]

/-- Witness for C10 at a concrete world holding a file but no loaded state. -/
theorem save_before_load_raises_witness :
    ManagerWorld.save { mem := none, disk := some (.obj []), tmp := none } 3 =
      (.error (.runtimeError "No state loaded. Call load() first."),
        { mem := none, disk := some (.obj []), tmp := none }) :=
  save_before_load_raises _ 3 rfl

/-! ### Sorted-insert lemmas for `complete_checkpoint` -/

lemma insertSorted_mem (l : List Int) (x y : Int) :
    y ∈ List.insertionSort (fun a b => a ≤ b) (l ++ [x]) ↔ y ∈ l ∨ y = x := by
  rw [(List.perm_insertionSort (fun a b => a ≤ b) (l ++ [x])).mem_iff]
  simp

lemma insertSorted_chain (l : List Int) (x : Int)
    (hs : List.Chain' (· < ·) l) (hx : x ∉ l) :
    List.Chain' (· < ·) (List.insertionSort (fun a b => a ≤ b) (l ++ [x])) := by
  rw [List.chain'_iff_pairwise] at hs ⊢
  have hnd : (l ++ [x]).Nodup := by
    rw [List.nodup_append]
    refine ⟨hs.imp ne_of_lt, List.nodup_singleton x, ?_⟩
    rw [List.disjoint_singleton]
    exact hx
  have hperm := List.perm_insertionSort (fun a b => a ≤ b) (l ++ [x])
  have hsorted := List.sorted_insertionSort (fun a b => a ≤ b) (l ++ [x])
  exact hsorted.lt_of_le (hperm.symm.nodup hnd)

/-- C2: with initialized build progress, `complete_checkpoint(id)` raises
`ValueError` (world unchanged) when the id is out of `[1, total]` or is
already completed; otherwise it inserts the id keeping the completed list
strictly sorted and duplicate-free, advances `current_checkpoint` to
`id + 1` when `id < total` and clears it to `null` when `id = total`, and
persists the result. -/
theorem complete_checkpoint_correct (w : ManagerWorld) (s : SessionState)
    (total cid : Int) (saveNow : Timestamp) (hmem : w.mem = some s)
    (htot : s.build_progress.checkpoints_total = some total)
    (hsorted : List.Chain' (· < ·) s.build_progress.checkpoints_completed) :
    ((cid < 1 ∨ cid > total ∨ cid ∈ s.build_progress.checkpoints_completed) →
      ∃ msg, w.completeCheckpoint cid saveNow = (.error (.valueError msg), w)) ∧
    (¬(cid < 1 ∨ cid > total ∨ cid ∈ s.build_progress.checkpoints_completed) →
      ∃ s2,
        w.completeCheckpoint cid saveNow =
          (.ok (), { mem := some s2, disk := some s2.toJson, tmp := none }) ∧
        List.Chain' (· < ·) s2.build_progress.checkpoints_completed ∧
        (∀ y, y ∈ s2.build_progress.checkpoints_completed ↔
          y ∈ s.build_progress.checkpoints_completed ∨ y = cid) ∧
        (cid < total → s2.build_progress.current_checkpoint = some (cid + 1)) ∧
        (cid = total → s2.build_progress.current_checkpoint = none)) := by
  have hget : w.getState = (.ok s, w) := by
    simp [ManagerWorld.getState, hmem]
  constructor
  · intro herr
    by_cases h1 : cid < 1 ∨ cid > total
    · refine ⟨s!"checkpoint_id must be between 1 and {total}", ?_⟩
      simp only [ManagerWorld.completeCheckpoint, hget, htot, if_pos h1]
    · have hmeml : cid ∈ s.build_progress.checkpoints_completed := by
        rcases herr with h | h | h
        · exact absurd (Or.inl h) h1
        · exact absurd (Or.inr h) h1
        · exact h
      refine ⟨s!"Checkpoint {cid} is already completed", ?_⟩
      simp only [ManagerWorld.completeCheckpoint, hget, htot, if_neg h1,
        if_pos hmeml]
  · intro hok
    push_neg at hok
    obtain ⟨hge, hle, hnotmem⟩ := hok
    have h1 : ¬(cid < 1 ∨ cid > total) := by
      push_neg
      exact ⟨hge, hle⟩
    refine
      ⟨{ s with
          build_progress :=
            { s.build_progress with
              checkpoints_completed :=
                List.insertionSort (fun a b => a ≤ b)
                  (s.build_progress.checkpoints_completed ++ [cid]),
              current_checkpoint :=
                if cid < total then some (cid + 1) else none },
          updated_at := saveNow }, ?_, ?_, ?_, ?_, ?_⟩
    · simp only [ManagerWorld.completeCheckpoint, hget, htot, if_neg h1,
        if_neg hnotmem, ManagerWorld.save]
    · exact insertSorted_chain _ _ hsorted hnotmem
    · exact fun y => insertSorted_mem _ _ _
    · intro hlt
      simp only [if_pos hlt]
    · intro heq
      simp only [heq, lt_irrefl, if_false]

/-- A concrete initialized manifest used by the C2 witness. -/
def c2State : SessionState :=
  { session_id := "s1", topic := "t", created_at := 0, updated_at := 0,
    build_progress :=
      { checkpoints_total := some 2, checkpoints_completed := [],
        current_checkpoint := some 1 } }

/-- Witness for C2: completing checkpoint 1 of 2 from an initialized
manifest with `[]` completed succeeds and advances to checkpoint 2, and
completing an out-of-range checkpoint 3 raises `ValueError`. -/
theorem complete_checkpoint_correct_witness :
    (∃ msg,
      ManagerWorld.completeCheckpoint { mem := some c2State, disk := none, tmp := none } 3 9 =
        (.error (.valueError msg), { mem := some c2State, disk := none, tmp := none })) ∧
    (∃ s2,
      ManagerWorld.completeCheckpoint { mem := some c2State, disk := none, tmp := none } 1 9 =
        (.ok (), { mem := some s2, disk := some s2.toJson, tmp := none }) ∧
      List.Chain' (· < ·) s2.build_progress.checkpoints_completed ∧
      (∀ y, y ∈ s2.build_progress.checkpoints_completed ↔
        y ∈ c2State.build_progress.checkpoints_completed ∨ y = 1) ∧
      ((1 : Int) < 2 → s2.build_progress.current_checkpoint = some 2) ∧
      ((1 : Int) = 2 → s2.build_progress.current_checkpoint = none)) := by
  constructor
  · exact
      (complete_checkpoint_correct _ c2State 2 3 9 rfl rfl (by decide)).1 (by decide)
  · exact
      (complete_checkpoint_correct _ c2State 2 1 9 rfl rfl (by decide)).2 (by decide)

/-! ### The build-progress invariant (C3) -/

/-- Executable strict-ascending check (equivalent to `Chain' (· < ·)`). -/
def strictlySortedB : List Int → Bool
  | [] => true
  | [_] => true
  | a :: b :: rest => decide (a < b) && strictlySortedB (b :: rest)

lemma strictlySortedB_iff (l : List Int) :
    strictlySortedB l = true ↔ List.Chain' (· < ·) l := by
  induction l with
  | nil => simp [strictlySortedB]
  | cons a l ih =>
    cases l with
    | nil => simp [strictlySortedB]
    | cons b rest =>
      rw [List.chain'_cons]
      simp [strictlySortedB, ← ih]

/-- All members of the `Phase` enum. -/
def phaseMembers : List Phase := [.spec, .plan, .build, .docs, .complete]

/-- All checkpoints done: the completed list (kept duplicate-free and inside
`[1, total]` by the other clauses) has `checkpoints_total` elements. -/
def allCheckpointsDone (s : SessionState) : Bool :=
  match s.build_progress.checkpoints_total with
  | none => false
  | some t => (s.build_progress.checkpoints_completed.length : Int) == t

/-- The invariant exactly as claimed: valid phase member, strictly sorted
duplicate-free completed list inside `[1, checkpoints_total]`, and
`current_checkpoint` null iff build progress is uninitialized or all
checkpoints are done. -/
def buildInvariantHolds (s : SessionState) : Bool :=
  decide (s.current_phase ∈ phaseMembers) &&
  strictlySortedB s.build_progress.checkpoints_completed &&
  s.build_progress.checkpoints_completed.all
    (fun c => decide (1 ≤ c) && decide (c ≤ s.build_progress.checkpoints_total.getD 0)) &&
  ((s.build_progress.current_checkpoint.isNone) ==
    (s.build_progress.checkpoints_total.isNone || allCheckpointsDone s))

/-- The amended invariant: the first two clauses unchanged, but
`current_checkpoint` is only required to be null or a checkpoint id in
`[1, checkpoints_total]` of an initialized build progress. -/
def buildInvariantHoldsAmended (s : SessionState) : Bool :=
  decide (s.current_phase ∈ phaseMembers) &&
  strictlySortedB s.build_progress.checkpoints_completed &&
  s.build_progress.checkpoints_completed.all
    (fun c => decide (1 ≤ c) && decide (c ≤ s.build_progress.checkpoints_total.getD 0)) &&
  (match s.build_progress.current_checkpoint with
   | none => true
   | some c =>
     match s.build_progress.checkpoints_total with
     | none => false
     | some t => decide (1 ≤ c) && decide (c ≤ t))

/-- An invariant-satisfying manifest on which `complete_checkpoint`
breaks the claimed biconditional: 2 checkpoints planned, none done yet,
checkpoint 1 active. -/
def c3Cex : SessionState :=
  { session_id := "s1", topic := "t", created_at := 0, updated_at := 0,
    build_progress :=
      { checkpoints_total := some 2, checkpoints_completed := [],
        current_checkpoint := some 1 } }

/-- C3 counterexample: completing checkpoint 2 out of order from `c3Cex`
succeeds and leaves `current_checkpoint = null` although checkpoint 1 is
still missing, so the claimed "null iff uninitialized or all done"
biconditional does not survive `complete_checkpoint`. -/
theorem checkpoint_invariant_not_preserved :
    buildInvariantHolds c3Cex = true ∧
    ((ManagerWorld.completeCheckpoint
        { mem := some c3Cex, disk := none, tmp := none } 2 9).2.mem.map
      buildInvariantHolds) = some false := by
  constructor
  · decide
  · decide

/-- Proposition form of the amended build-progress invariant. -/
def BuildProgressInv (bp : BuildProgress) : Prop :=
  List.Chain' (· < ·) bp.checkpoints_completed ∧
  (∀ c ∈ bp.checkpoints_completed, 1 ≤ c ∧ c ≤ bp.checkpoints_total.getD 0) ∧
  ∀ c, bp.current_checkpoint = some c →
    ∃ t, bp.checkpoints_total = some t ∧ 1 ≤ c ∧ c ≤ t

lemma buildInvariantHoldsAmended_iff (s : SessionState) :
    buildInvariantHoldsAmended s = true ↔ BuildProgressInv s.build_progress := by
  have hp : s.current_phase ∈ phaseMembers := by
    cases s.current_phase <;> simp [phaseMembers]
  unfold buildInvariantHoldsAmended BuildProgressInv
  rcases hc : s.build_progress.current_checkpoint with _ | c <;>
    rcases ht : s.build_progress.checkpoints_total with _ | t <;>
      simp [hp, strictlySortedB_iff, List.all_eq_true, ht, hc, and_assoc]

lemma amended_of_inv {s2 : SessionState} (h : BuildProgressInv s2.build_progress) :
    buildInvariantHoldsAmended s2 = true :=
  (buildInvariantHoldsAmended_iff s2).mpr h

lemma inv_insert (bp : BuildProgress) (total cid : Int)
    (htot : bp.checkpoints_total = some total) (hs : BuildProgressInv bp)
    (hge : 1 ≤ cid) (hle : cid ≤ total) (hniq : cid ∉ bp.checkpoints_completed) :
    BuildProgressInv
      { checkpoints_total := some total,
        checkpoints_completed :=
          List.insertionSort (fun a b => a ≤ b) (bp.checkpoints_completed ++ [cid]),
        current_checkpoint := if cid < total then some (cid + 1) else none } := by
  obtain ⟨hchain, hrange, _⟩ := hs
  refine ⟨insertSorted_chain _ _ hchain hniq, ?_, ?_⟩
  · intro c hcmem
    rw [insertSorted_mem] at hcmem
    rcases hcmem with h | rfl
    · have hb := hrange c h
      rwa [htot] at hb
    · simp only [Option.getD_some]
      exact ⟨hge, hle⟩
  · intro c hc
    by_cases hlt : cid < total
    · rw [if_pos hlt] at hc
      rw [Option.some_inj] at hc
      exact ⟨total, rfl, by omega, by omega⟩
    · rw [if_neg hlt] at hc
      cases hc

lemma inv_init (total : Int) (h : ¬total < 1) :
    BuildProgressInv
      { checkpoints_total := some total, checkpoints_completed := [],
        current_checkpoint := some 1 } := by
  refine ⟨List.chain'_nil, by simp, ?_⟩
  intro c hc
  rw [Option.some_inj] at hc
  exact ⟨total, rfl, by omega, by omega⟩

lemma inv_start (bp : BuildProgress) (total cid : Int)
    (htot : bp.checkpoints_total = some total) (hs : BuildProgressInv bp)
    (hge : 1 ≤ cid) (hle : cid ≤ total) :
    BuildProgressInv
      { checkpoints_total := some total,
        checkpoints_completed := bp.checkpoints_completed,
        current_checkpoint := some cid } := by
  refine ⟨hs.1, ?_, ?_⟩
  · intro c hcmem
    have hb := hs.2.1 c hcmem
    rwa [htot] at hb
  · intro c hc
    rw [Option.some_inj] at hc
    exact ⟨total, rfl, by omega, by omega⟩

/-- Post-condition: every in-memory state left by the operation satisfies
the amended invariant. -/
def preservesAmendedInv (r : Except StateError Unit × ManagerWorld) : Prop :=
  ∀ s2, r.2.mem = some s2 → buildInvariantHoldsAmended s2 = true

/-- C3 (amended): the amended invariant — valid phase member, strictly
sorted duplicate-free completed list inside `[1, checkpoints_total]`, and
`current_checkpoint` null or an id in `[1, checkpoints_total]` of an
initialized build progress — is preserved by every StateManager
operation. -/
theorem checkpoint_invariant_amended_preserved (w : ManagerWorld) (s : SessionState)
    (hmem : w.mem = some s) (hinv : buildInvariantHoldsAmended s = true)
    (total cid : Int) (tgt : Phase) (st : Status) (sha msg br : String)
    (wt : Option String) (cp : Option Int) (now saveNow : Timestamp) :
    preservesAmendedInv (w.initBuildProgress total saveNow) ∧
    preservesAmendedInv (w.startCheckpoint cid saveNow) ∧
    preservesAmendedInv (w.completeCheckpoint cid saveNow) ∧
    preservesAmendedInv (w.transitionToPhase tgt now saveNow) ∧
    preservesAmendedInv (w.addCommit sha msg cp now saveNow) ∧
    preservesAmendedInv (w.setStatus st saveNow) ∧
    preservesAmendedInv (w.setGitBranch br saveNow) ∧
    preservesAmendedInv (w.setGitWorktree wt saveNow) := by
  have hget : w.getState = (.ok s, w) := by
    simp [ManagerWorld.getState, hmem]
  rw [buildInvariantHoldsAmended_iff] at hinv
  refine ⟨?_, ?_, ?_, ?_, ?_, ?_, ?_, ?_⟩
  · -- init_build_progress
    intro s2 h
    by_cases hc : total < 1
    · rw [ManagerWorld.initBuildProgress, if_pos hc] at h
      simp only [hmem, Option.some_inj] at h
      subst h
      exact amended_of_inv hinv
    · rw [ManagerWorld.initBuildProgress, if_neg hc] at h
      simp only [hget, ManagerWorld.save, Option.some_inj] at h
      subst h
      exact amended_of_inv (inv_init total hc)
  · -- start_checkpoint
    intro s2 h
    rw [ManagerWorld.startCheckpoint] at h
    simp only [hget] at h
    rcases htot : s.build_progress.checkpoints_total with _ | total2
    · simp only [htot, hmem, Option.some_inj] at h
      subst h
      exact amended_of_inv hinv
    · simp only [htot] at h
      by_cases hc : cid < 1 ∨ cid > total2
      · rw [if_pos hc] at h
        simp only [hmem, Option.some_inj] at h
        subst h
        exact amended_of_inv hinv
      · rw [if_neg hc] at h
        simp only [ManagerWorld.save, Option.some_inj] at h
        subst h
        push_neg at hc
        exact amended_of_inv (inv_start _ total2 cid htot hinv hc.1 hc.2)
  · -- complete_checkpoint
    intro s2 h
    rw [ManagerWorld.completeCheckpoint] at h
    simp only [hget] at h
    rcases htot : s.build_progress.checkpoints_total with _ | total2
    · simp only [htot, hmem, Option.some_inj] at h
      subst h
      exact amended_of_inv hinv
    · simp only [htot] at h
      by_cases hc : cid < 1 ∨ cid > total2
      · rw [if_pos hc] at h
        simp only [hmem, Option.some_inj] at h
        subst h
        exact amended_of_inv hinv
      · rw [if_neg hc] at h
        by_cases hm : cid ∈ s.build_progress.checkpoints_completed
        · rw [if_pos hm] at h
          simp only [hmem, Option.some_inj] at h
          subst h
          exact amended_of_inv hinv
        · rw [if_neg hm] at h
          simp only [ManagerWorld.save, Option.some_inj] at h
          subst h
          push_neg at hc
          exact amended_of_inv (inv_insert _ total2 cid htot hinv hc.1 hc.2 hm)
  · -- transition_to_phase
    intro s2 h
    rw [ManagerWorld.transitionToPhase] at h
    simp only [hget] at h
    cases hv : validateTransition s.current_phase tgt
    · simp only [hv, Bool.false_eq_true, if_false, hmem, Option.some_inj] at h
      subst h
      exact amended_of_inv hinv
    · simp only [hv, if_true, ManagerWorld.save, Option.some_inj] at h
      subst h
      exact amended_of_inv hinv
  · -- add_commit
    intro s2 h
    rw [ManagerWorld.addCommit] at h
    simp only [hget, ManagerWorld.save, Option.some_inj] at h
    subst h
    exact amended_of_inv hinv
  · -- set_status
    intro s2 h
    rw [ManagerWorld.setStatus] at h
    simp only [hget, ManagerWorld.save, Option.some_inj] at h
    subst h
    exact amended_of_inv hinv
  · -- set_git_branch
    intro s2 h
    rw [ManagerWorld.setGitBranch] at h
    simp only [hget, ManagerWorld.save, Option.some_inj] at h
    subst h
    exact amended_of_inv hinv
  · -- set_git_worktree
    intro s2 h
    rw [ManagerWorld.setGitWorktree] at h
    simp only [hget, ManagerWorld.save, Option.some_inj] at h
    subst h
    exact amended_of_inv hinv

/-- Witness for the amended C3 theorem at a concrete invariant-satisfying
world: every operation applied to `c3Cex` leaves a state satisfying the
amended invariant. -/
theorem checkpoint_invariant_amended_preserved_witness :
    preservesAmendedInv
      (ManagerWorld.initBuildProgress { mem := some c3Cex, disk := none, tmp := none } 3 9) ∧
    preservesAmendedInv
      (ManagerWorld.startCheckpoint { mem := some c3Cex, disk := none, tmp := none } 2 9) ∧
    preservesAmendedInv
      (ManagerWorld.completeCheckpoint { mem := some c3Cex, disk := none, tmp := none } 2 9) ∧
    preservesAmendedInv
      (ManagerWorld.transitionToPhase { mem := some c3Cex, disk := none, tmp := none }
        Phase.plan 5 9) ∧
    preservesAmendedInv
      (ManagerWorld.addCommit { mem := some c3Cex, disk := none, tmp := none }
        "abc" "m" none 5 9) ∧
    preservesAmendedInv
      (ManagerWorld.setStatus { mem := some c3Cex, disk := none, tmp := none }
        Status.paused 9) ∧
    preservesAmendedInv
      (ManagerWorld.setGitBranch { mem := some c3Cex, disk := none, tmp := none } "b" 9) ∧
    preservesAmendedInv
      (ManagerWorld.setGitWorktree { mem := some c3Cex, disk := none, tmp := none } none 9) :=
  checkpoint_invariant_amended_preserved
    { mem := some c3Cex, disk := none, tmp := none } c3Cex rfl (by decide)
    3 2 Phase.plan Status.paused "abc" "m" "b" none none 5 9

/-! ### Round-trip of serialisation and validation (C4) -/

lemma parseOptTime_roundtrip (o : Option Timestamp) :
    parseOptTime (some (timeToJson o)) = some o := by
  cases o <;> rfl

lemma parseOptStr_roundtrip (o : Option String) :
    parseOptStr (some (optStrToJson o)) = some o := by
  cases o <;> rfl

lemma parseOptInt_roundtrip (o : Option Int) :
    parseOptInt (some (optIntToJson o)) = some o := by
  cases o <;> rfl

lemma parseEnum_phase_roundtrip (d : Phase) (p : Phase) :
    parseEnum Phase.fromValue d (some (.str p.value)) = some p := by
  cases p <;> rfl

lemma parseEnum_status_roundtrip (d : Status) (st : Status) :
    parseEnum Status.fromValue d (some (.str st.value)) = some st := by
  cases st <;> rfl

lemma parseEnum_sessionType_roundtrip (d : SessionType) (st : SessionType) :
    parseEnum SessionType.fromValue d (some (.str st.value)) = some st := by
  cases st <;> rfl

lemma phaseHistory_roundtrip (ph : PhaseHistory) :
    PhaseHistory.fromJson (some ph.toJson) = some ph := by
  simp [PhaseHistory.fromJson, PhaseHistory.toJson, JVal.lookup, List.lookup,
    parseOptTime_roundtrip]

lemma mapM_parseIntElem (l : List Int) :
    optionMapM parseIntElem (l.map JVal.num) = some l := by
  induction l with
  | nil => rfl
  | cons a l ih => simp [optionMapM, parseIntElem, ih]

lemma buildProgress_roundtrip (bp : BuildProgress) :
    BuildProgress.fromJson (some bp.toJson) = some bp := by
  simp [BuildProgress.fromJson, BuildProgress.toJson, JVal.lookup, List.lookup,
    parseOptInt_roundtrip, parseIntList, mapM_parseIntElem]

lemma gitContext_roundtrip (g : GitContext) :
    GitContext.fromJson (some g.toJson) = some g := by
  simp [GitContext.fromJson, GitContext.toJson, JVal.lookup, List.lookup,
    parseOptStr_roundtrip]

lemma commit_roundtrip (c : Commit) :
    Commit.fromJson c.toJson = some c := by
  simp [Commit.fromJson, Commit.toJson, JVal.lookup, List.lookup,
    parseOptInt_roundtrip, parseStr, parseTime, timeToJson]

lemma mapM_commit_roundtrip (cs : List Commit) :
    optionMapM Commit.fromJson (cs.map Commit.toJson) = some cs := by
  induction cs with
  | nil => rfl
  | cons c cs ih => simp [optionMapM, commit_roundtrip, ih]

lemma artifacts_roundtrip (a : Artifacts) :
    Artifacts.fromJson (some a.toJson) = some a := by
  simp [Artifacts.fromJson, Artifacts.toJson, JVal.lookup, List.lookup,
    parseStrD]

lemma sessionState_roundtrip (s : SessionState) :
    SessionState.fromJson s.toJson = some s := by
  simp [SessionState.fromJson, SessionState.toJson, JVal.lookup, List.lookup,
    parseStr, parseOptStr_roundtrip, parseTime, parseEnum_phase_roundtrip,
    parseEnum_status_roundtrip, parseEnum_sessionType_roundtrip,
    phaseHistory_roundtrip, buildProgress_roundtrip, gitContext_roundtrip,
    parseCommits, mapM_commit_roundtrip, artifacts_roundtrip, timeToJson]

/-- C4: after `save()`, loading the written state.json with a fresh manager
succeeds and reproduces every mutable field of the saved state except
`updated_at`, which `save()` refreshed. -/
theorem save_load_roundtrip (w : ManagerWorld) (s : SessionState) (saveNow : Timestamp)
    (hmem : w.mem = some s) :
    (w.save saveNow).1 = .ok () ∧
    ∃ x,
      (ManagerWorld.load
          { mem := none, disk := (w.save saveNow).2.disk, tmp := none }).1 = .ok x ∧
      x.session_id = s.session_id ∧ x.topic = s.topic ∧
      x.description = s.description ∧ x.session_type = s.session_type ∧
      x.current_phase = s.current_phase ∧ x.status = s.status ∧
      x.phase_history = s.phase_history ∧ x.build_progress = s.build_progress ∧
      x.git = s.git ∧ x.commits = s.commits ∧ x.artifacts = s.artifacts ∧
      x.created_at = s.created_at ∧ x.updated_at = saveNow := by
  have hs : w.save saveNow =
      (.ok (),
        { mem := some { s with updated_at := saveNow },
          disk := some ({ s with updated_at := saveNow } : SessionState).toJson,
          tmp := none }) := by
    simp [ManagerWorld.save, hmem]
  rw [hs]
  refine ⟨rfl, { s with updated_at := saveNow }, ?_, rfl, rfl, rfl, rfl, rfl,
    rfl, rfl, rfl, rfl, rfl, rfl, rfl, rfl⟩
  simp [ManagerWorld.load, sessionState_roundtrip]

/-- Concrete manifest for the C4 witness. -/
def c4State : SessionState :=
  { session_id := "s4", topic := "t", created_at := 0, updated_at := 0 }

/-- Witness for C4 at a concrete loaded manifest. -/
theorem save_load_roundtrip_witness :
    (ManagerWorld.save { mem := some c4State, disk := none, tmp := none } 11).1 = .ok () ∧
    ∃ x,
      (ManagerWorld.load
          { mem := none,
            disk :=
              (ManagerWorld.save
                { mem := some c4State, disk := none, tmp := none } 11).2.disk,
            tmp := none }).1 = .ok x ∧
      x.session_id = c4State.session_id ∧ x.topic = c4State.topic ∧
      x.description = c4State.description ∧ x.session_type = c4State.session_type ∧
      x.current_phase = c4State.current_phase ∧ x.status = c4State.status ∧
      x.phase_history = c4State.phase_history ∧ x.build_progress = c4State.build_progress ∧
      x.git = c4State.git ∧ x.commits = c4State.commits ∧ x.artifacts = c4State.artifacts ∧
      x.created_at = c4State.created_at ∧ x.updated_at = 11 :=
  save_load_roundtrip { mem := some c4State, disk := none, tmp := none } c4State 11 rfl

/-! ### Reconciler (apps/core/backend/src/database/sync.py with
crud from apps/core/session_db/crud.py)

The reconciler works on raw parsed JSON (`JVal`); DTO and row fields that
Python keeps dynamic are `JVal` here.  UUIDs are abstract naturals drawn
from a database counter. -/

/-- Python `v == "s"` for a JSON value against a string literal. -/
def JVal.eqStr (v : JVal) (s : String) : Bool :=
  match v with
  | .str t => t == s
  | _ => false

/-- Python `v is None` test. -/
def JVal.isNull : JVal → Bool
  | .null => true
  | _ => false

/-- Schema-generation detection: `"phase_history" in state or
"build_progress" in state`. -/
def isV2 (state : JVal) : Bool :=
  state.hasKey "phase_history" || state.hasKey "build_progress"

/-- The default `artifacts` dict used by both mapping functions. -/
def defaultArtifacts : JVal :=
  .obj
    [("spec", .str "spec.md"), ("plan", .str "plan.json"),
     ("plan_readable", .str "plan.md")]

/-- Generation-1 commit mapping: rename `checkpoint_id` to `checkpoint`. -/
def mapV1Commit (c : JVal) : JVal :=
  .obj
    [("sha", c.get "sha"), ("message", c.get "message"),
     ("checkpoint", (c.get "checkpoint_id").orElse (c.get "checkpoint")),
     ("created_at", c.get "created_at")]

/-- Generation-1 commit list mapping (the comprehension over `commits`). -/
def mapV1Commits (v : JVal) : JVal :=
  match v with
  | .arr xs => .arr (xs.map mapV1Commit)
  | other => other

/-- Generation-1 phase-history reconstruction from `phases{...}`. -/
def v1PhaseHistory (state : JVal) : JVal :=
  let phases := state.getD "phases" (.obj [])
  .obj
    [("spec_started_at", (phases.getD "spec" (.obj [])).get "started_at"),
     ("spec_completed_at", (phases.getD "spec" (.obj [])).get "finalized_at"),
     ("plan_started_at", (phases.getD "plan" (.obj [])).get "started_at"),
     ("plan_completed_at", (phases.getD "plan" (.obj [])).get "finalized_at"),
     ("build_started_at", (phases.getD "build" (.obj [])).get "started_at"),
     ("build_completed_at", (phases.getD "build" (.obj [])).get "completed_at"),
     ("docs_started_at", .null),
     ("docs_completed_at", .null)]

/-- `SessionCreate` DTO as filled by `map_state_to_session_create`. -/
structure SessionCreateD where
  session_slug : String
  title : JVal
  description : JVal
  session_type : JVal
  working_dir : String
  session_dir : String
  project_id : Option Nat
  git_branch : JVal
  git_worktree : JVal
  git_base_branch : JVal
  current_phase : JVal
  status : JVal
  phase_history : JVal
  checkpoints_total : JVal
  checkpoints_completed_list : JVal
  current_checkpoint : JVal
  commits_list : JVal
  artifacts : JVal

/-- `SessionUpdate` DTO as filled by `map_state_to_session_update` (these
fields are always explicitly set there; `None`-valued ones are dropped at
application time by `exclude_none`). -/
structure SessionUpdateD where
  title : JVal
  description : JVal
  current_phase : JVal
  status : JVal
  git_branch : JVal
  git_worktree : JVal
  git_base_branch : JVal
  spec_exists : Bool
  plan_exists : Bool
  checkpoints_total : JVal
  checkpoints_completed : Nat
  checkpoints_completed_list : JVal
  current_checkpoint : JVal
  phase_history : JVal
  commits_list : JVal
  artifacts : JVal

/-- `map_state_to_session_create`. -/
def mapStateToSessionCreate (state : JVal) (session_slug working_dir session_dir : String)
    (project_id : Option Nat) : SessionCreateD :=
  let is_v2 := isV2 state
  let current_phase := state.getD "current_phase" (.str "spec")
  let status0 := state.getD "status" (.str "active")
  let status :=
    if !is_v2 then
      let phases := state.getD "phases" (.obj [])
      if ((phases.getD "build" (.obj [])).get "status").eqStr "in_progress" then
        JVal.str "active"
      else status0
    else status0
  let phase_history :=
    if is_v2 then state.getD "phase_history" (.obj []) else v1PhaseHistory state
  let bp :=
    if is_v2 then state.getD "build_progress" (.obj [])
    else state.getD "plan_state" (.obj [])
  let checkpoints_total := (bp.get "checkpoints_total").orElse (.num 0)
  let checkpoints_completed_list := (bp.get "checkpoints_completed").orElse (.arr [])
  let current_checkpoint := bp.get "current_checkpoint"
  let git := state.getD "git" (.obj [])
  let git_branch := if is_v2 then git.get "branch" else .null
  let git_worktree := if is_v2 then git.get "worktree" else .null
  let git_base_branch := if is_v2 then git.get "base_branch" else .null
  let commits_list :=
    if is_v2 then state.getD "commits" (.arr [])
    else mapV1Commits (state.getD "commits" (.arr []))
  let artifacts := state.getD "artifacts" defaultArtifacts
  let session_type := state.getD "session_type" (state.getD "granularity" (.str "full"))
  { session_slug := session_slug,
    title := state.get "topic",
    description := state.get "description",
    session_type := session_type,
    working_dir := working_dir,
    session_dir := session_dir,
    project_id := project_id,
    git_branch := git_branch,
    git_worktree := git_worktree,
    git_base_branch := git_base_branch,
    current_phase := current_phase,
    status := status,
    phase_history := phase_history,
    checkpoints_total := checkpoints_total,
    checkpoints_completed_list := checkpoints_completed_list,
    current_checkpoint := current_checkpoint,
    commits_list := commits_list,
    artifacts := artifacts }

/-- `map_state_to_session_update`; the two artifact-exists flags are the
filesystem checks `(session_dir / "spec.md").exists()` and
`(session_dir / "plan.json").exists()`, passed in as the state of the
filesystem. -/
def mapStateToSessionUpdate (state : JVal) (spec_exists plan_exists : Bool) :
    SessionUpdateD :=
  let is_v2 := isV2 state
  let current_phase := state.getD "current_phase" (.str "spec")
  let status := state.getD "status" (.str "active")
  let phase_history :=
    if is_v2 then state.getD "phase_history" (.obj []) else v1PhaseHistory state
  let bp :=
    if is_v2 then state.getD "build_progress" (.obj [])
    else state.getD "plan_state" (.obj [])
  let checkpoints_total := bp.getD "checkpoints_total" (.num 0)
  let checkpoints_completed_list := bp.getD "checkpoints_completed" (.arr [])
  let current_checkpoint := bp.get "current_checkpoint"
  let git := state.getD "git" (.obj [])
  let git_branch := if is_v2 then git.get "branch" else .null
  let git_worktree := if is_v2 then git.get "worktree" else .null
  let git_base_branch := if is_v2 then git.get "base_branch" else .null
  let commits_list :=
    if is_v2 then state.getD "commits" (.arr [])
    else mapV1Commits (state.getD "commits" (.arr []))
  let artifacts := state.getD "artifacts" defaultArtifacts
  { title := state.get "topic",
    description := state.get "description",
    current_phase := current_phase,
    status := status,
    git_branch := git_branch,
    git_worktree := git_worktree,
    git_base_branch := git_base_branch,
    spec_exists := spec_exists,
    plan_exists := plan_exists,
    checkpoints_total := checkpoints_total,
    checkpoints_completed := checkpoints_completed_list.pyLen,
    checkpoints_completed_list := checkpoints_completed_list,
    current_checkpoint := current_checkpoint,
    phase_history := phase_history,
    commits_list := commits_list,
    artifacts := artifacts }

/-! ### Generation equivalence (C5) -/

lemma hasKey_setKey_version (st : JVal) (v : JVal) (k : String)
    (hk : k ≠ "version") :
    (st.setKey "version" v).hasKey k = st.hasKey k := by
  have hvk : (("version" : String) == k) = false := by
    rw [beq_eq_false_iff_ne]
    exact fun he => hk he.symm
  cases st <;> simp only [JVal.setKey]
  case obj fs =>
    have key_eq :
        ∀ p : String × JVal,
          (if p.1 == "version" then (("version" : String), v) else p).1 = p.1 := by
      intro p
      by_cases hp : p.1 == "version"
      · have hp2 : p.1 = "version" := by
          simpa using hp
        simp [hp, hp2]
      · simp [hp]
    by_cases h : fs.any (fun p => p.1 == "version")
    · rw [if_pos h]
      simp only [JVal.hasKey, List.any_map, Function.comp_def]
      have hfun :
          (fun p : String × JVal =>
            (if p.1 == "version" then (("version" : String), v) else p).1 == k) =
            fun p : String × JVal => p.1 == k :=
        funext fun p => by rw [key_eq p]
      rw [hfun]
    · rw [if_neg h]
      simp only [JVal.hasKey, List.any_append, List.any_cons, List.any_nil, hvk]
      simp

lemma isV2_setKey_version (st : JVal) (v : JVal) :
    isV2 (st.setKey "version" v) = isV2 st := by
  unfold isV2
  rw [hasKey_setKey_version st v "phase_history" (by decide),
    hasKey_setKey_version st v "build_progress" (by decide)]

/-- Logical equivalence of a generation-1 and a generation-2 manifest for
the checkpoint and phase fields: generation detection disagrees as the two
wire shapes require, and the renamed containers hold equal content. -/
def genEquiv (g1 g2 : JVal) : Prop :=
  isV2 g1 = false ∧ isV2 g2 = true ∧
  g1.getD "current_phase" (.str "spec") = g2.getD "current_phase" (.str "spec") ∧
  g1.getD "plan_state" (.obj []) = g2.getD "build_progress" (.obj [])

/-- C5: on equivalent generation-1/generation-2 manifests, both mapping
functions produce identical `current_phase`, `checkpoints_total`,
`checkpoints_completed` and `current_checkpoint`; generation is detected
from the presence of the `phase_history`/`build_progress` keys, and a
`version` field never influences the detection. -/
theorem generation_equivalence (g1 g2 : JVal) (h : genEquiv g1 g2)
    (slug wd sd : String) (pid : Option Nat) (se pe : Bool) :
    ((mapStateToSessionCreate g1 slug wd sd pid).current_phase =
        (mapStateToSessionCreate g2 slug wd sd pid).current_phase ∧
      (mapStateToSessionCreate g1 slug wd sd pid).checkpoints_total =
        (mapStateToSessionCreate g2 slug wd sd pid).checkpoints_total ∧
      (mapStateToSessionCreate g1 slug wd sd pid).checkpoints_completed_list =
        (mapStateToSessionCreate g2 slug wd sd pid).checkpoints_completed_list ∧
      (mapStateToSessionCreate g1 slug wd sd pid).current_checkpoint =
        (mapStateToSessionCreate g2 slug wd sd pid).current_checkpoint) ∧
    ((mapStateToSessionUpdate g1 se pe).current_phase =
        (mapStateToSessionUpdate g2 se pe).current_phase ∧
      (mapStateToSessionUpdate g1 se pe).checkpoints_total =
        (mapStateToSessionUpdate g2 se pe).checkpoints_total ∧
      (mapStateToSessionUpdate g1 se pe).checkpoints_completed =
        (mapStateToSessionUpdate g2 se pe).checkpoints_completed ∧
      (mapStateToSessionUpdate g1 se pe).checkpoints_completed_list =
        (mapStateToSessionUpdate g2 se pe).checkpoints_completed_list ∧
      (mapStateToSessionUpdate g1 se pe).current_checkpoint =
        (mapStateToSessionUpdate g2 se pe).current_checkpoint) ∧
    (∀ st v, isV2 (st.setKey "version" v) = isV2 st) := by
  obtain ⟨h1, h2, hphase, hbp⟩ := h
  refine ⟨⟨?_, ?_, ?_, ?_⟩, ⟨?_, ?_, ?_, ?_, ?_⟩, fun st v => isV2_setKey_version st v⟩ <;>
    simp only [mapStateToSessionCreate, mapStateToSessionUpdate, h1, h2,
      hphase, hbp, Bool.not_false, Bool.not_true, if_true, if_false,
      Bool.false_eq_true, Bool.true_eq_false]

/-- Concrete generation-1 manifest for the C5 witness. -/
def c5Gen1 : JVal :=
  .obj
    [("current_phase", .str "build"),
     ("plan_state",
       .obj
         [("checkpoints_total", .num 3),
          ("checkpoints_completed", .arr [.num 1]),
          ("current_checkpoint", .num 2)]),
     ("granularity", .str "full")]

/-- The equivalent generation-2 manifest for the C5 witness. -/
def c5Gen2 : JVal :=
  .obj
    [("current_phase", .str "build"),
     ("build_progress",
       .obj
         [("checkpoints_total", .num 3),
          ("checkpoints_completed", .arr [.num 1]),
          ("current_checkpoint", .num 2)])]

/-- Witness for C5 at the concrete equivalent pair of manifests. -/
theorem generation_equivalence_witness :
    ((mapStateToSessionCreate c5Gen1 "s" "w" "d" none).current_phase =
        (mapStateToSessionCreate c5Gen2 "s" "w" "d" none).current_phase ∧
      (mapStateToSessionCreate c5Gen1 "s" "w" "d" none).checkpoints_total =
        (mapStateToSessionCreate c5Gen2 "s" "w" "d" none).checkpoints_total ∧
      (mapStateToSessionCreate c5Gen1 "s" "w" "d" none).checkpoints_completed_list =
        (mapStateToSessionCreate c5Gen2 "s" "w" "d" none).checkpoints_completed_list ∧
      (mapStateToSessionCreate c5Gen1 "s" "w" "d" none).current_checkpoint =
        (mapStateToSessionCreate c5Gen2 "s" "w" "d" none).current_checkpoint) ∧
    ((mapStateToSessionUpdate c5Gen1 true false).current_phase =
        (mapStateToSessionUpdate c5Gen2 true false).current_phase ∧
      (mapStateToSessionUpdate c5Gen1 true false).checkpoints_total =
        (mapStateToSessionUpdate c5Gen2 true false).checkpoints_total ∧
      (mapStateToSessionUpdate c5Gen1 true false).checkpoints_completed =
        (mapStateToSessionUpdate c5Gen2 true false).checkpoints_completed ∧
      (mapStateToSessionUpdate c5Gen1 true false).checkpoints_completed_list =
        (mapStateToSessionUpdate c5Gen2 true false).checkpoints_completed_list ∧
      (mapStateToSessionUpdate c5Gen1 true false).current_checkpoint =
        (mapStateToSessionUpdate c5Gen2 true false).current_checkpoint) ∧
    (∀ st v, isV2 (st.setKey "version" v) = isV2 st) :=
  generation_equivalence c5Gen1 c5Gen2 ⟨rfl, rfl, rfl, rfl⟩ "s" "w" "d" none true false

/-- One row of the `sessions` table (identity plus the mapped fields;
aggregated stats and DB-side timestamps are not touched by the
reconciler and are omitted). -/
structure SessionRecord where
  id : Nat
  session_slug : String
  title : JVal
  description : JVal
  session_type : JVal
  working_dir : String
  session_dir : String
  project_id : Option Nat
  git_branch : JVal
  git_worktree : JVal
  git_base_branch : JVal
  current_phase : JVal
  status : JVal
  phase_history : JVal
  spec_exists : Bool
  plan_exists : Bool
  checkpoints_total : JVal
  checkpoints_completed : Nat
  checkpoints_completed_list : JVal
  current_checkpoint : JVal
  commits_list : JVal
  artifacts : JVal

/-- The index store: rows plus a fresh-identity counter. -/
structure DB where
  nextId : Nat := 0
  rows : List SessionRecord := []

/-- `get_session_by_slug`. -/
def getSessionBySlug (db : DB) (slug : String) : Option SessionRecord :=
  db.rows.find? (fun r => r.session_slug == slug)

/-- The row built by `create_session` from the DTO
(`checkpoints_completed` is `len(data.checkpoints_completed_list)`;
artifact flags default to false). -/
def mkRow (n : Nat) (d : SessionCreateD) : SessionRecord :=
  { id := n, session_slug := d.session_slug, title := d.title,
    description := d.description, session_type := d.session_type,
    working_dir := d.working_dir, session_dir := d.session_dir,
    project_id := d.project_id, git_branch := d.git_branch,
    git_worktree := d.git_worktree, git_base_branch := d.git_base_branch,
    current_phase := d.current_phase, status := d.status,
    phase_history := d.phase_history, spec_exists := false,
    plan_exists := false, checkpoints_total := d.checkpoints_total,
    checkpoints_completed := d.checkpoints_completed_list.pyLen,
    checkpoints_completed_list := d.checkpoints_completed_list,
    current_checkpoint := d.current_checkpoint,
    commits_list := d.commits_list, artifacts := d.artifacts }

/-- `create_session`: insert the row with a fresh identity. -/
def createSession (db : DB) (d : SessionCreateD) : SessionRecord × DB :=
  let r : SessionRecord := mkRow db.nextId d
  (r, { nextId := db.nextId + 1, rows := db.rows ++ [r] })

/-- `update_session` field application with `exclude_none` semantics: a
`None`-valued DTO field leaves the row field unchanged; always-set
scalar fields overwrite; `project_id` is set only when provided. -/
def applyUpdate (r : SessionRecord) (u : SessionUpdateD) (pid : Option Nat) :
    SessionRecord :=
  { r with
    title := if u.title.isNull then r.title else u.title,
    description := if u.description.isNull then r.description else u.description,
    current_phase := if u.current_phase.isNull then r.current_phase else u.current_phase,
    status := if u.status.isNull then r.status else u.status,
    git_branch := if u.git_branch.isNull then r.git_branch else u.git_branch,
    git_worktree := if u.git_worktree.isNull then r.git_worktree else u.git_worktree,
    git_base_branch :=
      if u.git_base_branch.isNull then r.git_base_branch else u.git_base_branch,
    spec_exists := u.spec_exists,
    plan_exists := u.plan_exists,
    checkpoints_total :=
      if u.checkpoints_total.isNull then r.checkpoints_total else u.checkpoints_total,
    checkpoints_completed := u.checkpoints_completed,
    checkpoints_completed_list :=
      if u.checkpoints_completed_list.isNull then r.checkpoints_completed_list
      else u.checkpoints_completed_list,
    current_checkpoint :=
      if u.current_checkpoint.isNull then r.current_checkpoint
      else u.current_checkpoint,
    phase_history :=
      if u.phase_history.isNull then r.phase_history else u.phase_history,
    commits_list := if u.commits_list.isNull then r.commits_list else u.commits_list,
    artifacts := if u.artifacts.isNull then r.artifacts else u.artifacts,
    project_id :=
      match pid with
      | some p => some p
      | none => r.project_id }

/-- Replace the row with the given identity. -/
def updateRows (rows : List SessionRecord) (id : Nat) (r2 : SessionRecord) :
    List SessionRecord :=
  rows.map (fun x => if x.id == id then r2 else x)

/-- `update_session` with the DTO of `map_state_to_session_update`. -/
def updateSession (db : DB) (id : Nat) (u : SessionUpdateD) (pid : Option Nat) :
    Option SessionRecord × DB :=
  match db.rows.find? (fun r => r.id == id) with
  | none => (none, db)
  | some r =>
    let r2 := applyUpdate r u pid
    (some r2, { db with rows := updateRows db.rows id r2 })

/-- `update_session` with the flags-only DTO used on the create path
(`SessionUpdate(spec_exists=..., plan_exists=...)`, every other field
unset). -/
def updateFlags (db : DB) (id : Nat) (se pe : Bool) :
    Option SessionRecord × DB :=
  match db.rows.find? (fun r => r.id == id) with
  | none => (none, db)
  | some r =>
    let r2 := { r with spec_exists := se, plan_exists := pe }
    (some r2, { db with rows := updateRows db.rows id r2 })

/-- Content of one session directory on disk. -/
inductive ManifestFile where
  | missing
  | invalid (err : String)
  | valid (state : JVal)

/-- The parts of the filesystem that `sync_one` consults: the manifest and
the existence of the two artifact files. -/
structure SessionFS where
  manifest : ManifestFile
  spec_exists : Bool
  plan_exists : Bool

/-- Typed errors of `sync_one` (`SessionNotFoundOnFilesystem`,
`InvalidStateJson`, and any other exception). -/
inductive SyncError where
  | notFoundOnFilesystem
  | invalidStateJson (err : String)
  | unexpected (err : String)
deriving Repr, DecidableEq

/-- `sync_session_from_filesystem`: read and upsert one manifest. -/
def syncSessionFromFilesystem (db : DB) (fs : SessionFS)
    (working_dir session_slug : String) (project_id : Option Nat) :
    Except SyncError (SessionRecord × DB) :=
  let session_dir := working_dir ++ "/agents/sessions/" ++ session_slug
  match fs.manifest with
  | .missing => .error .notFoundOnFilesystem
  | .invalid e => .error (.invalidStateJson e)
  | .valid state =>
    match getSessionBySlug db session_slug with
    | some existing =>
      let u := mapStateToSessionUpdate state fs.spec_exists fs.plan_exists
      match updateSession db existing.id u project_id with
      | (some r, db2) => .ok (r, db2)
      | (none, _db2) => .error (.unexpected "session not found")
    | none =>
      let c := mapStateToSessionCreate state session_slug working_dir session_dir project_id
      let rdb := createSession db c
      match updateFlags rdb.2 rdb.1.id fs.spec_exists fs.plan_exists with
      | (some r2, db2) => .ok (r2, db2)
      | (none, _db2) => .error (.unexpected "session not found")

/-- One entry of `agents/sessions/` as seen by `iterdir()`.  The
`unexpectedError` field injects an arbitrary exception thrown by the
database layer while syncing this entry (caught by the catch-all arm). -/
structure DirEntry where
  name : String
  is_dir : Bool
  fs : SessionFS
  unexpectedError : Option String

/-- One element of the `failed` list of `sync_all_sessions_in_project`.
`manifestNotFound` is rendered as the string "state.json not found" with
the path, `invalidManifest` as "invalid state.json" with the parse error,
`unexpected` as "unexpected error" with the exception text. -/
inductive FailReason where
  | manifestNotFound
  | invalidManifest (details : String)
  | unexpected (details : String)
deriving Repr, DecidableEq

/-- A `failed` summary entry: slug plus reason. -/
structure FailedEntry where
  session_slug : String
  reason : FailReason
deriving Repr, DecidableEq

/-- A `synced` summary entry. -/
structure SyncedEntry where
  session_slug : String
  id : Nat
  current_phase : JVal
  status : JVal

/-- The `{synced, failed, total}` summary. -/
structure SyncSummary where
  synced : List SyncedEntry
  failed : List FailedEntry
  total : Nat

/-- The loop body of `sync_all_sessions_in_project` over the directory
entries, threading the index store. -/
def syncAllGo (working_dir : String) (project_id : Option Nat) (db : DB) :
    List DirEntry → List SyncedEntry × List FailedEntry × DB
  | [] => ([], [], db)
  | e :: rest =>
    if e.is_dir = false then syncAllGo working_dir project_id db rest
    else
      match e.fs.manifest with
      | .missing =>
        let sfd := syncAllGo working_dir project_id db rest
        (sfd.1, { session_slug := e.name, reason := .manifestNotFound } :: sfd.2.1, sfd.2.2)
      | .invalid err =>
        let sfd := syncAllGo working_dir project_id db rest
        (sfd.1, { session_slug := e.name, reason := .invalidManifest err } :: sfd.2.1, sfd.2.2)
      | .valid _ =>
        match e.unexpectedError with
        | some err =>
          let sfd := syncAllGo working_dir project_id db rest
          (sfd.1, { session_slug := e.name, reason := .unexpected err } :: sfd.2.1, sfd.2.2)
        | none =>
          match syncSessionFromFilesystem db e.fs working_dir e.name project_id with
          | .ok (r, db1) =>
            let sfd := syncAllGo working_dir project_id db1 rest
            ({ session_slug := e.name, id := r.id, current_phase := r.current_phase,
                status := r.status } :: sfd.1, sfd.2.1, sfd.2.2)
          | .error .notFoundOnFilesystem =>
            let sfd := syncAllGo working_dir project_id db rest
            (sfd.1, { session_slug := e.name, reason := .manifestNotFound } :: sfd.2.1, sfd.2.2)
          | .error (.invalidStateJson err) =>
            let sfd := syncAllGo working_dir project_id db rest
            (sfd.1, { session_slug := e.name, reason := .invalidManifest err } :: sfd.2.1, sfd.2.2)
          | .error (.unexpected err) =>
            let sfd := syncAllGo working_dir project_id db rest
            (sfd.1, { session_slug := e.name, reason := .unexpected err } :: sfd.2.1, sfd.2.2)

/-- `sync_all_sessions_in_project`: `none` models a missing
`agents/sessions/` directory. -/
def syncAllSessionsInProject (dir : Option (List DirEntry)) (db : DB)
    (working_dir : String) (project_id : Option Nat) : SyncSummary × DB :=
  match dir with
  | none => ({ synced := [], failed := [], total := 0 }, db)
  | some entries =>
    let sfd := syncAllGo working_dir project_id db entries
    ({ synced := sfd.1, failed := sfd.2.1, total := sfd.1.length + sfd.2.1.length },
      sfd.2.2)


/-! ### Batch reconciliation accounting (C6) -/

/-- How a directory entry fails, if it does: missing manifest, bad JSON,
or an injected unexpected exception. -/
def entryFailReason (e : DirEntry) : Option FailReason :=
  match e.fs.manifest with
  | .missing => some .manifestNotFound
  | .invalid err => some (.invalidManifest err)
  | .valid _ =>
    match e.unexpectedError with
    | some err => some (.unexpected err)
    | none => none

/-- Executable success check on a sync result. -/
def syncResultOk : Except SyncError (SessionRecord × DB) → Bool
  | .ok _ => true
  | .error _ => false

lemma find?_id_mem (rows : List SessionRecord) (r : SessionRecord) (hr : r ∈ rows) :
    ∃ x, rows.find? (fun y => y.id == r.id) = some x := by
  match h : rows.find? (fun y => y.id == r.id) with
  | some x => exact ⟨x, h⟩
  | none =>
    exfalso
    have h2 := List.find?_eq_none.mp h r hr
    simp at h2

lemma sync_valid_isOk (db : DB) (fs : SessionFS) (wd slug : String)
    (pid : Option Nat) (st : JVal) (hm : fs.manifest = .valid st) :
    syncResultOk (syncSessionFromFilesystem db fs wd slug pid) = true := by
  rcases hg : getSessionBySlug db slug with _ | existing
  · obtain ⟨x, hx⟩ :=
      find?_id_mem
        (createSession db
          (mapStateToSessionCreate st slug wd (wd ++ "/agents/sessions/" ++ slug) pid)).2.rows
        (createSession db
          (mapStateToSessionCreate st slug wd (wd ++ "/agents/sessions/" ++ slug) pid)).1
        (List.mem_append_right _ (List.mem_singleton.mpr rfl))
    simp only [syncSessionFromFilesystem, hm, hg, updateFlags, hx, syncResultOk]
  · have hmem : existing ∈ db.rows := List.mem_of_find?_eq_some hg
    obtain ⟨x, hx⟩ := find?_id_mem db.rows existing hmem
    simp only [syncSessionFromFilesystem, hm, hg, updateSession, hx, syncResultOk]

lemma syncAllGo_length (wd : String) (pid : Option Nat) :
    ∀ (entries : List DirEntry) (db : DB),
      (syncAllGo wd pid db entries).1.length +
        (syncAllGo wd pid db entries).2.1.length =
        (entries.filter (fun e => e.is_dir)).length := by
  intro entries
  induction entries with
  | nil => intro db; rfl
  | cons e rest ih =>
    intro db
    cases hd : e.is_dir with
    | false =>
      have h := ih db
      simp only [syncAllGo, hd, if_pos rfl]
      simp only [List.filter_cons, hd, Bool.false_eq_true, if_false]
      exact h
    | true =>
      rcases hm : e.fs.manifest with _ | err | st
      · have h := ih db
        simp only [syncAllGo, hd, hm, Bool.true_eq_false, if_false,
          List.filter_cons, if_true, List.length_cons]
        omega
      · have h := ih db
        simp only [syncAllGo, hd, hm, Bool.true_eq_false, if_false,
          List.filter_cons, if_true, List.length_cons]
        omega
      · rcases hu : e.unexpectedError with _ | uerr
        · rcases hs : syncSessionFromFilesystem db e.fs wd e.name pid with serr | ⟨r, db1⟩
          · have h := ih db
            rcases serr with _ | e2 | e2 <;>
              · simp only [syncAllGo, hd, hm, hu, hs, Bool.true_eq_false, if_false,
                  List.filter_cons, if_true, List.length_cons]
                omega
          · have h := ih db1
            simp only [syncAllGo, hd, hm, hu, hs, Bool.true_eq_false, if_false,
              List.filter_cons, if_true, List.length_cons]
            omega
        · have h := ih db
          simp only [syncAllGo, hd, hm, hu, Bool.true_eq_false, if_false,
            List.filter_cons, if_true, List.length_cons]
          omega

lemma syncAllGo_failed_mem (wd : String) (pid : Option Nat) :
    ∀ (entries : List DirEntry) (db : DB) (e : DirEntry) (r : FailReason),
      e ∈ entries → e.is_dir = true → entryFailReason e = some r →
      ({ session_slug := e.name, reason := r } : FailedEntry) ∈
        (syncAllGo wd pid db entries).2.1 := by
  intro entries
  induction entries with
  | nil => intro db e r he
           exact absurd he (List.not_mem_nil e)
  | cons e0 rest ih =>
    intro db e r he hd hr
    rcases List.mem_cons.mp he with rfl | hrest
    · rcases hm : e.fs.manifest with _ | err | st
      · simp only [entryFailReason, hm, Option.some_inj] at hr
        subst hr
        simp only [syncAllGo, hd, Bool.true_eq_false, if_false, hm]
        exact List.mem_cons_self _ _
      · simp only [entryFailReason, hm, Option.some_inj] at hr
        subst hr
        simp only [syncAllGo, hd, Bool.true_eq_false, if_false, hm]
        exact List.mem_cons_self _ _
      · rcases hu : e.unexpectedError with _ | uerr
        · simp only [entryFailReason, hm, hu] at hr
          exact Option.noConfusion hr
        · simp only [entryFailReason, hm, hu, Option.some_inj] at hr
          subst hr
          simp only [syncAllGo, hd, Bool.true_eq_false, if_false, hm, hu]
          exact List.mem_cons_self _ _
    · cases hd0 : e0.is_dir with
      | false =>
        simp only [syncAllGo, hd0, if_pos rfl]
        exact ih db e r hrest hd hr
      | true =>
        rcases hm0 : e0.fs.manifest with _ | err0 | st0
        · simp only [syncAllGo, hd0, Bool.true_eq_false, if_false, hm0]
          exact List.mem_cons_of_mem _ (ih db e r hrest hd hr)
        · simp only [syncAllGo, hd0, Bool.true_eq_false, if_false, hm0]
          exact List.mem_cons_of_mem _ (ih db e r hrest hd hr)
        · rcases hu0 : e0.unexpectedError with _ | uerr0
          · rcases hs : syncSessionFromFilesystem db e0.fs wd e0.name pid with serr | ⟨r0, db1⟩
            · rcases serr with _ | e2 | e2 <;>
                · simp only [syncAllGo, hd0, Bool.true_eq_false, if_false, hm0, hu0, hs]
                  exact List.mem_cons_of_mem _ (ih db e r hrest hd hr)
            · simp only [syncAllGo, hd0, Bool.true_eq_false, if_false, hm0, hu0, hs]
              exact ih db1 e r hrest hd hr
          · simp only [syncAllGo, hd0, Bool.true_eq_false, if_false, hm0, hu0]
            exact List.mem_cons_of_mem _ (ih db e r hrest hd hr)

lemma syncAllGo_accounted (wd : String) (pid : Option Nat) :
    ∀ (entries : List DirEntry) (db : DB) (e : DirEntry),
      e ∈ entries → e.is_dir = true →
      e.name ∈ (syncAllGo wd pid db entries).1.map (fun x => x.session_slug) ∨
      e.name ∈ (syncAllGo wd pid db entries).2.1.map (fun x => x.session_slug) := by
  intro entries
  induction entries with
  | nil => intro db e he
           exact absurd he (List.not_mem_nil e)
  | cons e0 rest ih =>
    intro db e he hd
    rcases List.mem_cons.mp he with rfl | hrest
    · rcases hm : e.fs.manifest with _ | err | st
      · right
        simp only [syncAllGo, hd, Bool.true_eq_false, if_false, hm, List.map_cons]
        exact List.mem_cons_self _ _
      · right
        simp only [syncAllGo, hd, Bool.true_eq_false, if_false, hm, List.map_cons]
        exact List.mem_cons_self _ _
      · rcases hu : e.unexpectedError with _ | uerr
        · rcases hs : syncSessionFromFilesystem db e.fs wd e.name pid with serr | ⟨r0, db1⟩
          · exfalso
            have hok := sync_valid_isOk db e.fs wd e.name pid st hm
            rw [hs] at hok
            simp [syncResultOk] at hok
          · left
            simp only [syncAllGo, hd, Bool.true_eq_false, if_false, hm, hu, hs,
              List.map_cons]
            exact List.mem_cons_self _ _
        · right
          simp only [syncAllGo, hd, Bool.true_eq_false, if_false, hm, hu, List.map_cons]
          exact List.mem_cons_self _ _
    · cases hd0 : e0.is_dir with
      | false =>
        simp only [syncAllGo, hd0, if_pos rfl]
        exact ih db e hrest hd
      | true =>
        rcases hm0 : e0.fs.manifest with _ | err0 | st0
        · rcases ih db e hrest hd with h | h
          · left
            simpa only [syncAllGo, hd0, Bool.true_eq_false, if_false, hm0] using h
          · right
            simp only [syncAllGo, hd0, Bool.true_eq_false, if_false, hm0, List.map_cons]
            exact List.mem_cons_of_mem _ h
        · rcases ih db e hrest hd with h | h
          · left
            simpa only [syncAllGo, hd0, Bool.true_eq_false, if_false, hm0] using h
          · right
            simp only [syncAllGo, hd0, Bool.true_eq_false, if_false, hm0, List.map_cons]
            exact List.mem_cons_of_mem _ h
        · rcases hu0 : e0.unexpectedError with _ | uerr0
          · rcases hs : syncSessionFromFilesystem db e0.fs wd e0.name pid with serr | ⟨r0, db1⟩
            · rcases serr with _ | e2 | e2 <;>
                · rcases ih db e hrest hd with h | h
                  · left
                    simpa only [syncAllGo, hd0, Bool.true_eq_false, if_false, hm0, hu0, hs]
                      using h
                  · right
                    simp only [syncAllGo, hd0, Bool.true_eq_false, if_false, hm0, hu0, hs,
                      List.map_cons]
                    exact List.mem_cons_of_mem _ h
            · rcases ih db1 e hrest hd with h | h
              · left
                simp only [syncAllGo, hd0, Bool.true_eq_false, if_false, hm0, hu0, hs,
                  List.map_cons]
                exact List.mem_cons_of_mem _ h
              · right
                simpa only [syncAllGo, hd0, Bool.true_eq_false, if_false, hm0, hu0, hs]
                  using h
          · rcases ih db e hrest hd with h | h
            · left
              simpa only [syncAllGo, hd0, Bool.true_eq_false, if_false, hm0, hu0] using h
            · right
              simp only [syncAllGo, hd0, Bool.true_eq_false, if_false, hm0, hu0,
                List.map_cons]
              exact List.mem_cons_of_mem _ h

/-- C6: `sync_all` on a missing sessions directory returns the empty
summary; otherwise `total = len(synced) + len(failed)` equals the number
of immediate subdirectories, every subdirectory with a missing manifest is
recorded in `failed` as manifest-not-found (not raised), every other
failing subdirectory (bad JSON, unexpected exception) is recorded in
`failed` with its slug and reason, and every subdirectory is accounted
for in `synced` or `failed` — one bad session never aborts the rest. -/
theorem sync_all_accounting (wd : String) (pid : Option Nat) (db : DB)
    (entries : List DirEntry) :
    syncAllSessionsInProject none db wd pid =
      ({ synced := [], failed := [], total := 0 }, db) ∧
    ((syncAllSessionsInProject (some entries) db wd pid).1.total =
      (syncAllSessionsInProject (some entries) db wd pid).1.synced.length +
        (syncAllSessionsInProject (some entries) db wd pid).1.failed.length) ∧
    ((syncAllSessionsInProject (some entries) db wd pid).1.total =
      (entries.filter (fun e => e.is_dir)).length) ∧
    (∀ e ∈ entries, e.is_dir = true → ∀ r, entryFailReason e = some r →
      ({ session_slug := e.name, reason := r } : FailedEntry) ∈
        (syncAllSessionsInProject (some entries) db wd pid).1.failed) ∧
    (∀ e ∈ entries, e.is_dir = true →
      e.name ∈
          (syncAllSessionsInProject (some entries) db wd pid).1.synced.map
            (fun x => x.session_slug) ∨
      e.name ∈
          (syncAllSessionsInProject (some entries) db wd pid).1.failed.map
            (fun x => x.session_slug)) := by
  refine ⟨rfl, rfl, ?_, ?_, ?_⟩
  · simpa only [syncAllSessionsInProject] using syncAllGo_length wd pid entries db
  · intro e he hd r hr
    simpa only [syncAllSessionsInProject] using
      syncAllGo_failed_mem wd pid entries db e r he hd hr
  · intro e he hd
    simpa only [syncAllSessionsInProject] using
      syncAllGo_accounted wd pid entries db e he hd

/-- Three concrete directory entries for the C6 witness: a subdirectory
with a missing manifest, a plain file, and a subdirectory with a valid
manifest. -/
def c6Entries : List DirEntry :=
  [{ name := "a", is_dir := true,
     fs := { manifest := .missing, spec_exists := false, plan_exists := false },
     unexpectedError := none },
   { name := "b", is_dir := false,
     fs := { manifest := .missing, spec_exists := false, plan_exists := false },
     unexpectedError := none },
   { name := "c", is_dir := true,
     fs := { manifest := .valid (.obj []), spec_exists := true, plan_exists := false },
     unexpectedError := none }]

/-- Witness for C6 on `c6Entries`: the missing-manifest subdirectory is
recorded in `failed`, the total matches the subdirectory count, and the
valid subdirectory is accounted for. -/
theorem sync_all_accounting_witness :
    ({ session_slug := "a", reason := FailReason.manifestNotFound } : FailedEntry) ∈
      (syncAllSessionsInProject (some c6Entries) { nextId := 0, rows := [] } "w" none).1.failed ∧
    ((syncAllSessionsInProject (some c6Entries) { nextId := 0, rows := [] } "w" none).1.total =
      (c6Entries.filter (fun e => e.is_dir)).length) ∧
    ("c" ∈
        (syncAllSessionsInProject (some c6Entries) { nextId := 0, rows := [] } "w" none).1.synced.map
          (fun x => x.session_slug) ∨
      "c" ∈
        (syncAllSessionsInProject (some c6Entries) { nextId := 0, rows := [] } "w" none).1.failed.map
          (fun x => x.session_slug)) :=
  ⟨(sync_all_accounting "w" none { nextId := 0, rows := [] } c6Entries).2.2.2.1
      _ (List.mem_cons_self _ _) rfl FailReason.manifestNotFound rfl,
    (sync_all_accounting "w" none { nextId := 0, rows := [] } c6Entries).2.2.1,
    (sync_all_accounting "w" none { nextId := 0, rows := [] } c6Entries).2.2.2.2
      { name := "c", is_dir := true,
        fs := { manifest := .valid (.obj []), spec_exists := true, plan_exists := false },
        unexpectedError := none }
      (by simp [c6Entries]) rfl⟩

/-! ### Idempotent upsert (C7) -/

/-- Rows whose listed property fails make a predicate-free prefix. -/
lemma find?_prefix_false {α : Type} (p : α → Bool) :
    ∀ (l1 l2 : List α), (∀ x ∈ l1, p x = false) →
      List.find? p (l1 ++ l2) = List.find? p l2 := by
  intro l1
  induction l1 with
  | nil => intro l2 h; rfl
  | cons x xs ih =>
    intro l2 h
    have hx := h x (List.mem_cons_self x xs)
    simp only [List.cons_append, List.find?_cons, hx]
    exact ih l2 fun y hy => h y (List.mem_cons_of_mem x hy)

lemma updateRows_noop {rows : List SessionRecord} {n : Nat}
    (h : ∀ x ∈ rows, (x.id == n) = false) (r2 : SessionRecord) :
    updateRows rows n r2 = rows := by
  unfold updateRows
  rw [List.map_congr_left fun x hx => by rw [h x hx]]
  exact List.map_id rows

/-- Replacing by a unique identity rewrites exactly the one matching row. -/
lemma updateRows_decomp (rows : List SessionRecord) (r0 r2 : SessionRecord)
    (hnd : (rows.map (fun r => r.id)).Nodup) (hmem : r0 ∈ rows) :
    ∃ l1 l2,
      rows = l1 ++ r0 :: l2 ∧
      updateRows rows r0.id r2 = l1 ++ r2 :: l2 ∧
      (∀ x ∈ l1, (x.id == r0.id) = false) ∧
      (∀ x ∈ l2, (x.id == r0.id) = false) := by
  obtain ⟨l1, l2, rfl⟩ := List.append_of_mem hmem
  have hnd2 := hnd
  rw [List.map_append, List.map_cons, List.nodup_append] at hnd2
  obtain ⟨hn1, hn2, hdisj⟩ := hnd2
  have h1 : ∀ x ∈ l1, (x.id == r0.id) = false := by
    intro x hx
    have : x.id ≠ r0.id := by
      intro he
      exact hdisj (List.mem_map_of_mem _ hx) (by rw [he]; exact List.mem_cons_self _ _)
    simpa using this
  have h2 : ∀ x ∈ l2, (x.id == r0.id) = false := by
    intro x hx
    have : r0.id ∉ l2.map (fun r => r.id) := (List.nodup_cons.mp hn2).1
    have hne : x.id ≠ r0.id := by
      intro he
      exact this (he ▸ List.mem_map_of_mem _ hx)
    simpa using hne
  refine ⟨l1, l2, rfl, ?_, h1, h2⟩
  unfold updateRows
  rw [List.map_append, List.map_cons]
  congr 1
  · rw [List.map_congr_left fun x hx => by rw [h1 x hx]]
    exact List.map_id l1
  · congr 1
    · simp
    · rw [List.map_congr_left fun x hx => by rw [h2 x hx]]
      exact List.map_id l2

lemma jval_ite_idem (old upd : JVal) :
    (if upd.isNull = true then (if upd.isNull = true then old else upd) else upd) =
      if upd.isNull = true then old else upd := by
  by_cases h : upd.isNull = true <;> simp [h]

lemma applyUpdate_idem (r : SessionRecord) (u : SessionUpdateD) (pid : Option Nat) :
    applyUpdate (applyUpdate r u pid) u pid = applyUpdate r u pid := by
  cases pid with
  | none =>
    unfold applyUpdate
    simp [jval_ite_idem]
  | some p =>
    unfold applyUpdate
    simp [jval_ite_idem]

/-- The checkpoint container consulted by both mapping functions:
`build_progress` for generation 2, `plan_state` for generation 1. -/
def bpSource (state : JVal) : JVal :=
  if isV2 state then state.getD "build_progress" (.obj [])
  else state.getD "plan_state" (.obj [])

/-- Schema conformance of the manifest parts where the create and update
mappings differ (the two wire shapes of spec section 6 satisfy it):
`checkpoints_total` absent, null or a number; `checkpoints_completed`
absent or a list; and generation-1 manifests carry no top-level `status`
key. -/
def manifestWF (state : JVal) : Bool :=
  (match (bpSource state).lookup "checkpoints_total" with
   | none => true
   | some .null => true
   | some (.num _) => true
   | _ => false) &&
  (match (bpSource state).lookup "checkpoints_completed" with
   | none => true
   | some (.arr _) => true
   | _ => false) &&
  (isV2 state || !(state.hasKey "status"))

lemma getD_eq_lookup (v : JVal) (k : String) (d : JVal) :
    v.getD k d =
      match v.lookup k with
      | some x => x
      | none => d := by
  cases v <;> rfl

lemma lookup_eq_none_of_hasKey_false (v : JVal) (k : String)
    (h : v.hasKey k = false) : v.lookup k = none := by
  cases v <;> simp only [JVal.lookup]
  case obj fs =>
    simp only [JVal.hasKey] at h
    induction fs with
    | nil => rfl
    | cons p ps ih =>
      simp only [List.any_cons, Bool.or_eq_false_iff] at h
      have hk : (k == p.1) = false := by
        rcases h with ⟨h1, _⟩
        by_cases he : p.1 = k
        · rw [he] at h1
          simp at h1
        · simp only [beq_eq_false_iff_ne, ne_eq]
          exact fun hke => he hke.symm
      simp only [List.lookup, hk]
      exact ih h.2


lemma ct_consistent (bp : JVal)
    (h : (match bp.lookup "checkpoints_total" with
          | none => true
          | some JVal.null => true
          | some (JVal.num _) => true
          | _ => false) = true) :
    (if (bp.getD "checkpoints_total" (.num 0)).isNull = true
     then (bp.get "checkpoints_total").orElse (.num 0)
     else bp.getD "checkpoints_total" (.num 0)) =
      (bp.get "checkpoints_total").orElse (.num 0) := by
  rw [JVal.get, getD_eq_lookup, getD_eq_lookup]
  rcases hl : bp.lookup "checkpoints_total" with _ | v
  · simp [JVal.isNull, JVal.orElse, JVal.isTruthy]
  · rw [hl] at h
    rcases v with _ | b | m | s | xs | fs
    · simp [JVal.isNull, JVal.orElse, JVal.isTruthy]
    · simp at h
    · by_cases hm : m = 0 <;>
        simp [JVal.isNull, JVal.orElse, JVal.isTruthy, hm]
    · simp at h
    · simp at h
    · simp at h

lemma cc_consistent (bp : JVal)
    (h : (match bp.lookup "checkpoints_completed" with
          | none => true
          | some (JVal.arr _) => true
          | _ => false) = true) :
    ((if (bp.getD "checkpoints_completed" (.arr [])).isNull = true
      then (bp.get "checkpoints_completed").orElse (.arr [])
      else bp.getD "checkpoints_completed" (.arr [])) =
        (bp.get "checkpoints_completed").orElse (.arr [])) ∧
    (bp.getD "checkpoints_completed" (.arr [])).pyLen =
      ((bp.get "checkpoints_completed").orElse (.arr [])).pyLen := by
  rw [JVal.get, getD_eq_lookup, getD_eq_lookup]
  rcases hl : bp.lookup "checkpoints_completed" with _ | v
  · exact ⟨by simp [JVal.isNull, JVal.orElse, JVal.isTruthy], rfl⟩
  · rw [hl] at h
    rcases v with _ | b | m | s | xs | fs
    · simp at h
    · simp at h
    · simp at h
    · simp at h
    · rcases xs with _ | ⟨y, ys⟩ <;>
        simp [JVal.isNull, JVal.orElse, JVal.isTruthy, JVal.pyLen]
    · simp at h

lemma status_consistent (st : JVal) (c : Bool)
    (h : (isV2 st || !(st.hasKey "status")) = true) :
    (if (st.getD "status" (.str "active")).isNull = true
     then
       (if (!isV2 st) = true
        then (if c = true then JVal.str "active" else st.getD "status" (.str "active"))
        else st.getD "status" (.str "active"))
     else st.getD "status" (.str "active")) =
      (if (!isV2 st) = true
       then (if c = true then JVal.str "active" else st.getD "status" (.str "active"))
       else st.getD "status" (.str "active")) := by
  cases hv : isV2 st with
  | false =>
    rw [hv] at h
    have hk : st.hasKey "status" = false := by
      simpa using h
    have hlk := lookup_eq_none_of_hasKey_false st "status" hk
    rw [getD_eq_lookup, hlk]
    simp [hv, JVal.isNull]
  | true => simp [hv]

lemma applyUpdate_createRow (n : Nat) (st : JVal) (slug wd sd : String)
    (pid : Option Nat) (se pe : Bool) (hwf : manifestWF st = true) :
    applyUpdate
      { mkRow n (mapStateToSessionCreate st slug wd sd pid) with
        spec_exists := se, plan_exists := pe }
      (mapStateToSessionUpdate st se pe) pid =
    { mkRow n (mapStateToSessionCreate st slug wd sd pid) with
      spec_exists := se, plan_exists := pe } := by
  rw [manifestWF, Bool.and_eq_true, Bool.and_eq_true] at hwf
  obtain ⟨⟨hct, hcc⟩, hst⟩ := hwf
  simp only [mkRow, mapStateToSessionCreate, mapStateToSessionUpdate, applyUpdate,
    SessionRecord.mk.injEq]
  refine ⟨trivial, trivial, ite_self _, ite_self _, trivial, trivial, trivial, ?_,
    ite_self _, ite_self _, ite_self _, ite_self _, ?_, ite_self _, trivial, trivial,
    ?_, ?_, ?_, ite_self _, ite_self _, ite_self _⟩
  · cases pid <;> rfl
  · exact status_consistent st _ hst
  · exact ct_consistent _ hct
  · exact (cc_consistent _ hcc).2
  · exact (cc_consistent _ hcc).1

lemma find?_three (p : SessionRecord → Bool) (l1 l2 : List SessionRecord)
    (r : SessionRecord) (h1 : ∀ x ∈ l1, p x = false) (hr : p r = true) :
    (l1 ++ r :: l2).find? p = some r := by
  rw [find?_prefix_false p l1 _ h1]
  simp [List.find?_cons, hr]

lemma filter_three (p : SessionRecord → Bool) (l1 l2 : List SessionRecord)
    (r : SessionRecord) (h1 : ∀ x ∈ l1, p x = false)
    (h2 : ∀ x ∈ l2, p x = false) (hr : p r = true) :
    (l1 ++ r :: l2).filter p = [r] := by
  rw [List.filter_append, List.filter_cons]
  rw [List.filter_eq_nil_iff.mpr fun a ha => by rw [h1 a ha]; exact Bool.false_ne_true,
    List.filter_eq_nil_iff.mpr fun a ha => by rw [h2 a ha]; exact Bool.false_ne_true]
  simp [hr]

lemma slug_prefix_false (l1 l2 : List SessionRecord) (r0 : SessionRecord) (slug : String)
    (hnd : ((l1 ++ r0 :: l2).map (fun r => r.session_slug)).Nodup)
    (hr0 : (r0.session_slug == slug) = true) :
    (∀ x ∈ l1, (x.session_slug == slug) = false) ∧
    (∀ x ∈ l2, (x.session_slug == slug) = false) := by
  have hs : r0.session_slug = slug := by
    simpa using hr0
  rw [List.map_append, List.map_cons, List.nodup_append] at hnd
  obtain ⟨h1, h2, hdisj⟩ := hnd
  constructor
  · intro x hx
    rw [beq_eq_false_iff_ne]
    intro he
    exact hdisj (List.mem_map_of_mem _ hx)
      (by rw [he, ← hs]; exact List.mem_cons_self _ _)
  · intro x hx
    rw [beq_eq_false_iff_ne]
    intro he
    have hn : r0.session_slug ∉ l2.map fun r => r.session_slug :=
      (List.nodup_cons.mp h2).1
    exact hn (by rw [hs, ← he]; exact List.mem_map_of_mem _ hx)

/-- The index store is well formed: fresh identities above every row, and
identities and slugs unique. -/
def DBWF (db : DB) : Prop :=
  (∀ r ∈ db.rows, r.id < db.nextId) ∧
  (db.rows.map (fun r => r.id)).Nodup ∧
  (db.rows.map (fun r => r.session_slug)).Nodup

/-- The row that the create path of `sync_one` leaves in the store. -/
def createdRow (db : DB) (st : JVal) (wd slug : String) (pid : Option Nat)
    (se pe : Bool) : SessionRecord :=
  { mkRow db.nextId
      (mapStateToSessionCreate st slug wd (wd ++ "/agents/sessions/" ++ slug) pid) with
    spec_exists := se, plan_exists := pe }

lemma mkRow_id (n : Nat) (d : SessionCreateD) : (mkRow n d).id = n := rfl

lemma createdRow_id (db : DB) (st : JVal) (wd slug : String) (pid : Option Nat)
    (se pe : Bool) : (createdRow db st wd slug pid se pe).id = db.nextId := rfl

lemma createdRow_slug (db : DB) (st : JVal) (wd slug : String) (pid : Option Nat)
    (se pe : Bool) : (createdRow db st wd slug pid se pe).session_slug = slug := rfl

lemma sync_one_create_case (db : DB) (fs : SessionFS) (wd slug : String)
    (pid : Option Nat) (st : JVal) (hdb : DBWF db) (hm : fs.manifest = .valid st)
    (hg : getSessionBySlug db slug = none) :
    syncSessionFromFilesystem db fs wd slug pid =
      .ok (createdRow db st wd slug pid fs.spec_exists fs.plan_exists,
        { nextId := db.nextId + 1,
          rows := db.rows ++
            [createdRow db st wd slug pid fs.spec_exists fs.plan_exists] }) := by
  have hidpre : ∀ x ∈ db.rows, (x.id == db.nextId) = false := by
    intro x hx
    rw [beq_eq_false_iff_ne]
    exact Nat.ne_of_lt (hdb.1 x hx)
  have hfind1 :
      (db.rows ++
          [mkRow db.nextId
            (mapStateToSessionCreate st slug wd
              (wd ++ "/agents/sessions/" ++ slug) pid)]).find?
          (fun r => r.id == db.nextId) =
        some (mkRow db.nextId
          (mapStateToSessionCreate st slug wd (wd ++ "/agents/sessions/" ++ slug) pid)) :=
    find?_three _ db.rows [] _ hidpre (by simp [mkRow_id])
  have hupd :
      ∀ r2 : SessionRecord,
        updateRows
            (db.rows ++
              [mkRow db.nextId
                (mapStateToSessionCreate st slug wd
                  (wd ++ "/agents/sessions/" ++ slug) pid)])
            db.nextId r2 =
          db.rows ++ [r2] := by
    intro r2
    unfold updateRows
    rw [List.map_append]
    congr 1
    · rw [List.map_congr_left fun x hx => by rw [hidpre x hx]]
      exact List.map_id _
    · simp [mkRow_id]
  simp only [syncSessionFromFilesystem, hm, hg, createSession, updateFlags, mkRow_id,
    hfind1, hupd]
  rfl

lemma updateRows_append_fresh (rows : List SessionRecord) (R r2 : SessionRecord)
    (hpre : ∀ x ∈ rows, (x.id == R.id) = false) :
    updateRows (rows ++ [R]) R.id r2 = rows ++ [r2] := by
  unfold updateRows
  rw [List.map_append]
  congr 1
  · rw [List.map_congr_left fun x hx => by rw [hpre x hx]]
    exact List.map_id _
  · simp

lemma sync_one_update_eq (db : DB) (fs : SessionFS) (wd slug : String)
    (pid : Option Nat) (st : JVal) (r0 : SessionRecord)
    (hm : fs.manifest = .valid st) (hg : getSessionBySlug db slug = some r0)
    (hfid : db.rows.find? (fun y => y.id == r0.id) = some r0) :
    syncSessionFromFilesystem db fs wd slug pid =
      .ok
        (applyUpdate r0 (mapStateToSessionUpdate st fs.spec_exists fs.plan_exists) pid,
          { db with
            rows :=
              updateRows db.rows r0.id
                (applyUpdate r0
                  (mapStateToSessionUpdate st fs.spec_exists fs.plan_exists) pid) }) := by
  simp only [syncSessionFromFilesystem, hm, hg, updateSession, hfid]

/-- C7: on a well-formed store and manifest, `sync_one` succeeds; a second
run with the unchanged manifest returns the identical record and leaves
the store unchanged; the update path preserves the record identity and
the row count, the create path adds exactly one row; and afterwards the
slug identifies exactly one record. -/
theorem sync_one_idempotent (db : DB) (fs : SessionFS) (wd slug : String)
    (pid : Option Nat) (st : JVal) (hdb : DBWF db)
    (hm : fs.manifest = .valid st) (hwf : manifestWF st = true) :
    ∃ r1 db1,
      syncSessionFromFilesystem db fs wd slug pid = .ok (r1, db1) ∧
      syncSessionFromFilesystem db1 fs wd slug pid = .ok (r1, db1) ∧
      r1.session_slug = slug ∧
      DBWF db1 ∧
      db1.rows.filter (fun r => r.session_slug == slug) = [r1] ∧
      (∀ r0, getSessionBySlug db slug = some r0 →
        r1.id = r0.id ∧ db1.rows.length = db.rows.length) ∧
      (getSessionBySlug db slug = none →
        db1.rows.length = db.rows.length + 1) := by
  rcases hg : getSessionBySlug db slug with _ | r0
  · -- create path on the first run, update path on the second
    have hidpre : ∀ x ∈ db.rows, (x.id == db.nextId) = false := by
      intro x hx
      rw [beq_eq_false_iff_ne]
      exact Nat.ne_of_lt (hdb.1 x hx)
    have hg' : db.rows.find? (fun r => r.session_slug == slug) = none := hg
    have hslugpre : ∀ x ∈ db.rows, (x.session_slug == slug) = false := by
      intro x hx
      have hnp := List.find?_eq_none.mp hg' x hx
      simp only [Bool.not_eq_true] at hnp
      exact hnp
    refine
      ⟨createdRow db st wd slug pid fs.spec_exists fs.plan_exists,
        { nextId := db.nextId + 1,
          rows := db.rows ++ [createdRow db st wd slug pid fs.spec_exists fs.plan_exists] },
        sync_one_create_case db fs wd slug pid st hdb hm hg, ?_, createdRow_slug db st wd slug pid _ _,
        ?_, ?_, ?_, ?_⟩
    · -- second run takes the update path and is a no-op
      have hg2 :
          getSessionBySlug
              { nextId := db.nextId + 1,
                rows := db.rows ++
                  [createdRow db st wd slug pid fs.spec_exists fs.plan_exists] }
              slug =
            some (createdRow db st wd slug pid fs.spec_exists fs.plan_exists) := by
        unfold getSessionBySlug
        refine find?_three _ db.rows [] _ hslugpre ?_
        rw [createdRow_slug]
        exact beq_self_eq_true slug
      have hfid2 :
          (db.rows ++ [createdRow db st wd slug pid fs.spec_exists fs.plan_exists]).find?
              (fun y =>
                y.id == (createdRow db st wd slug pid fs.spec_exists fs.plan_exists).id) =
            some (createdRow db st wd slug pid fs.spec_exists fs.plan_exists) := by
        refine find?_three _ db.rows [] _ ?_ (beq_self_eq_true _)
        intro x hx
        rw [createdRow_id]
        exact hidpre x hx
      have happ :
          applyUpdate (createdRow db st wd slug pid fs.spec_exists fs.plan_exists)
              (mapStateToSessionUpdate st fs.spec_exists fs.plan_exists) pid =
            createdRow db st wd slug pid fs.spec_exists fs.plan_exists :=
        applyUpdate_createRow db.nextId st slug wd (wd ++ "/agents/sessions/" ++ slug)
          pid fs.spec_exists fs.plan_exists hwf
      have hupd2 :
          updateRows
              (db.rows ++ [createdRow db st wd slug pid fs.spec_exists fs.plan_exists])
              (createdRow db st wd slug pid fs.spec_exists fs.plan_exists).id
              (createdRow db st wd slug pid fs.spec_exists fs.plan_exists) =
            db.rows ++ [createdRow db st wd slug pid fs.spec_exists fs.plan_exists] := by
        refine updateRows_append_fresh db.rows _ _ ?_
        intro x hx
        rw [createdRow_id]
        exact hidpre x hx
      rw [sync_one_update_eq _ fs wd slug pid st _ hm hg2 hfid2, happ, hupd2]
    · -- well-formedness of the resulting store
      refine ⟨?_, ?_, ?_⟩
      · intro r hr
        rcases List.mem_append.mp hr with h | h
        · exact Nat.lt_succ_of_lt (hdb.1 r h)
        · rw [List.mem_singleton.mp h, createdRow_id]
          exact Nat.lt_succ_self _
      · rw [List.map_append]
        rw [List.nodup_append]
        refine ⟨hdb.2.1, by simp, ?_⟩
        intro a ha hb
        simp only [List.map_cons, List.map_nil, List.mem_singleton, createdRow_id] at hb
        obtain ⟨r, hr, rfl⟩ := List.mem_map.mp ha
        exact absurd hb (Nat.ne_of_lt (hdb.1 r hr))
      · rw [List.map_append]
        rw [List.nodup_append]
        refine ⟨hdb.2.2, by simp, ?_⟩
        intro a ha hb
        simp only [List.map_cons, List.map_nil, List.mem_singleton, createdRow_slug] at hb
        obtain ⟨r, hr, rfl⟩ := List.mem_map.mp ha
        have := hslugpre r hr
        rw [hb] at this
        simp at this
    · -- the slug now identifies exactly the new row
      exact
        filter_three _ db.rows [] _ hslugpre
          (fun x hx => absurd hx (List.not_mem_nil x))
          (by rw [createdRow_slug]; exact beq_self_eq_true slug)
    · intro r0 h0
      exact Option.noConfusion h0
    · intro _
      simp
  · -- update path on both runs
    have hg' : db.rows.find? (fun r => r.session_slug == slug) = some r0 := hg
    have hr0mem : r0 ∈ db.rows := List.mem_of_find?_eq_some hg'
    have hr0p : (r0.session_slug == slug) = true := by
      have hp := List.find?_some hg'
      simpa using hp
    obtain ⟨l1, l2, hdecomp, hupdec, h1, h2⟩ :=
      updateRows_decomp db.rows r0
        (applyUpdate r0 (mapStateToSessionUpdate st fs.spec_exists fs.plan_exists) pid)
        hdb.2.1 hr0mem
    have hfid : db.rows.find? (fun y => y.id == r0.id) = some r0 := by
      rw [hdecomp]
      exact find?_three _ l1 l2 r0 h1 (beq_self_eq_true _)
    obtain ⟨hs1, hs2⟩ :=
      slug_prefix_false l1 l2 r0 slug (by rw [← hdecomp]; exact hdb.2.2) hr0p
    have hrun1 := sync_one_update_eq db fs wd slug pid st r0 hm hg hfid
    refine
      ⟨applyUpdate r0 (mapStateToSessionUpdate st fs.spec_exists fs.plan_exists) pid,
        { db with
          rows := updateRows db.rows r0.id
            (applyUpdate r0 (mapStateToSessionUpdate st fs.spec_exists fs.plan_exists) pid) },
        hrun1, ?_, ?_, ?_, ?_, ?_, ?_⟩
    · -- second run is a no-op
      have hg2 :
          getSessionBySlug
              { db with
                rows := updateRows db.rows r0.id
                  (applyUpdate r0
                    (mapStateToSessionUpdate st fs.spec_exists fs.plan_exists) pid) }
              slug =
            some (applyUpdate r0
              (mapStateToSessionUpdate st fs.spec_exists fs.plan_exists) pid) := by
        unfold getSessionBySlug
        rw [hupdec]
        exact find?_three _ l1 l2 _ hs1 hr0p
      have hfid2 :
          (updateRows db.rows r0.id
              (applyUpdate r0
                (mapStateToSessionUpdate st fs.spec_exists fs.plan_exists) pid)).find?
              (fun y =>
                y.id ==
                  (applyUpdate r0
                    (mapStateToSessionUpdate st fs.spec_exists fs.plan_exists) pid).id) =
            some (applyUpdate r0
              (mapStateToSessionUpdate st fs.spec_exists fs.plan_exists) pid) := by
        rw [hupdec]
        exact find?_three _ l1 l2 _ h1 (beq_self_eq_true _)
      have hrun2 := sync_one_update_eq _ fs wd slug pid st _ hm hg2 hfid2
      rw [hrun2, applyUpdate_idem]
      have hnoop :
          updateRows
              (updateRows db.rows r0.id
                (applyUpdate r0
                  (mapStateToSessionUpdate st fs.spec_exists fs.plan_exists) pid))
              (applyUpdate r0
                (mapStateToSessionUpdate st fs.spec_exists fs.plan_exists) pid).id
              (applyUpdate r0
                (mapStateToSessionUpdate st fs.spec_exists fs.plan_exists) pid) =
            updateRows db.rows r0.id
              (applyUpdate r0
                (mapStateToSessionUpdate st fs.spec_exists fs.plan_exists) pid) := by
        have h1b :
            ∀ x ∈ l1,
              (x.id ==
                (applyUpdate r0
                  (mapStateToSessionUpdate st fs.spec_exists fs.plan_exists)
                  pid).id) = false := h1
        have h2b :
            ∀ x ∈ l2,
              (x.id ==
                (applyUpdate r0
                  (mapStateToSessionUpdate st fs.spec_exists fs.plan_exists)
                  pid).id) = false := h2
        rw [hupdec]
        unfold updateRows
        rw [List.map_append]
        congr 1
        · rw [List.map_congr_left fun x hx => by rw [h1b x hx]]
          exact List.map_id _
        · rw [List.map_cons]
          congr 1
          · simp
          · rw [List.map_congr_left fun x hx => by rw [h2b x hx]]
            exact List.map_id _
      rw [hnoop]
    · -- the updated row keeps the slug
      have : r0.session_slug = slug := by
        simpa using hr0p
      exact this
    · -- well-formedness preserved
      refine ⟨?_, ?_, ?_⟩
      · intro r hr
        rw [hupdec] at hr
        rcases List.mem_append.mp hr with h | h
        · exact hdb.1 r (by rw [hdecomp]; exact List.mem_append_left _ h)
        · rcases List.mem_cons.mp h with rfl | h
          · exact hdb.1 r0 hr0mem
          · exact hdb.1 r (by
              rw [hdecomp]
              exact List.mem_append_right _ (List.mem_cons_of_mem _ h))
      · rw [hupdec]
        have hmapeq :
            (l1 ++
                (applyUpdate r0
                  (mapStateToSessionUpdate st fs.spec_exists fs.plan_exists) pid) ::
                  l2).map (fun r => r.id) =
              (l1 ++ r0 :: l2).map (fun r => r.id) := by
          rw [List.map_append, List.map_append, List.map_cons, List.map_cons]
          rfl
        rw [hmapeq, ← hdecomp]
        exact hdb.2.1
      · rw [hupdec]
        have hmapeq :
            (l1 ++
                (applyUpdate r0
                  (mapStateToSessionUpdate st fs.spec_exists fs.plan_exists) pid) ::
                  l2).map (fun r => r.session_slug) =
              (l1 ++ r0 :: l2).map (fun r => r.session_slug) := by
          rw [List.map_append, List.map_append, List.map_cons, List.map_cons]
          rfl
        rw [hmapeq, ← hdecomp]
        exact hdb.2.2
    · rw [hupdec]
      exact filter_three _ l1 l2 _ hs1 hs2 hr0p
    · intro r0b h0
      obtain rfl : r0 = r0b := by
        injection h0
      refine ⟨rfl, ?_⟩
      rw [hupdec, hdecomp]
      simp
    · intro h0
      exact Option.noConfusion h0

/-- A concrete generation-2 manifest for the C7 witness. -/
def c7State : JVal :=
  .obj
    [("topic", .str "t"),
     ("current_phase", .str "build"),
     ("build_progress",
       .obj
         [("checkpoints_total", .num 2),
          ("checkpoints_completed", .arr [.num 1]),
          ("current_checkpoint", .num 2)])]

/-- The C7 witness filesystem: a valid manifest with spec.md present. -/
def c7Fs : SessionFS :=
  { manifest := .valid c7State, spec_exists := true, plan_exists := false }

/-- Witness for C7 on an empty store and the concrete manifest. -/
theorem sync_one_idempotent_witness :
    ∃ r1 db1,
      syncSessionFromFilesystem { nextId := 0, rows := [] } c7Fs "w" "s" none =
        .ok (r1, db1) ∧
      syncSessionFromFilesystem db1 c7Fs "w" "s" none = .ok (r1, db1) ∧
      r1.session_slug = "s" ∧
      DBWF db1 ∧
      db1.rows.filter (fun r => r.session_slug == "s") = [r1] ∧
      (∀ r0, getSessionBySlug { nextId := 0, rows := [] } "s" = some r0 →
        r1.id = r0.id ∧
        db1.rows.length = ({ nextId := 0, rows := [] } : DB).rows.length) ∧
      (getSessionBySlug { nextId := 0, rows := [] } "s" = none →
        db1.rows.length = ({ nextId := 0, rows := [] } : DB).rows.length + 1) :=
  sync_one_idempotent { nextId := 0, rows := [] } c7Fs "w" "s" none c7State
    ⟨fun r hr => absurd hr (List.not_mem_nil r), List.nodup_nil, List.nodup_nil⟩
    rfl (by decide)

/-! ### SyncTaskPool (apps/core/backend/task_pool/task_pool.py)

Coroutines are identified by abstract tokens (each Python coroutine object
is distinct).  `waiting` are tasks created by `submit` whose wrapper still
waits on the semaphore, `running` are wrapper bodies holding a semaphore
permit (`async with self._get_semaphore()`), `closed` are coroutines
discarded by `coro.close()` — a closed coroutine raises when awaited, so
its body can never run.  The tracked `_tasks` set is `waiting ++ running`.
`reset()` is documented as for reuse/test isolation only, not for use
mid-drain, and is outside the modelled transitions. -/

/-- The observable state of one `SyncTaskPool` together with its tasks. -/
structure PoolState where
  maxConcurrent : Nat
  shuttingDown : Bool
  waiting : List Nat
  running : List Nat
  closed : List Nat

/-- `SyncTaskPool(max_concurrent=n)` (the module-level `default_pool`
uses `n = 5`). -/
def mkPool (n : Nat) : PoolState :=
  { maxConcurrent := n, shuttingDown := false, waiting := [], running := [],
    closed := [] }

/-- `submit(coro)`: reject (closing the coroutine) when shutting down or
when no event loop is running; otherwise create the wrapper task and track
it. -/
def PoolState.submit (p : PoolState) (c : Nat) (loopRunning : Bool) :
    Option Nat × PoolState :=
  if p.shuttingDown then (none, { p with closed := c :: p.closed })
  else if !loopRunning then (none, { p with closed := c :: p.closed })
  else (some c, { p with waiting := c :: p.waiting })

/-- One scheduler step of the pool and its event loop.  `start` is the
semaphore acquisition of `_run_with_semaphore`: a counting semaphore of
size `max_concurrent` admits a body only while fewer than that many
permits are held.  `finish` releases the permit and the done-callback
discards the task.  A fresh coroutine object is distinct from every
tracked or closed one. -/
inductive PoolStep : PoolState → PoolState → Prop where
  | submit (p : PoolState) (c : Nat) (loopRunning : Bool)
      (hw : c ∉ p.waiting) (hr : c ∉ p.running) (hc : c ∉ p.closed) :
      PoolStep p (p.submit c loopRunning).2
  | start (p : PoolState) (c : Nat) (hc : c ∈ p.waiting)
      (hcap : p.running.length < p.maxConcurrent) :
      PoolStep p
        { p with waiting := p.waiting.erase c, running := c :: p.running }
  | finish (p : PoolState) (c : Nat) (hc : c ∈ p.running) :
      PoolStep p { p with running := p.running.erase c }
  | shutdown (p : PoolState) :
      PoolStep p { p with shuttingDown := true }

/-- Reachability from a state by scheduler steps. -/
inductive PoolReach (p0 : PoolState) : PoolState → Prop where
  | refl : PoolReach p0 p0
  | step {p q : PoolState} : PoolReach p0 p → PoolStep p q → PoolReach p0 q

lemma poolStep_maxConcurrent {p q : PoolState} (h : PoolStep p q) :
    q.maxConcurrent = p.maxConcurrent := by
  cases h with
  | submit c loopRunning hw hr hc =>
    unfold PoolState.submit
    by_cases hs : p.shuttingDown <;> cases loopRunning <;> simp [hs]
  | start => rfl
  | finish => rfl
  | shutdown => rfl

lemma poolStep_running_bound {p q : PoolState} (h : PoolStep p q)
    (hp : p.running.length ≤ p.maxConcurrent) :
    q.running.length ≤ q.maxConcurrent := by
  cases h with
  | submit c loopRunning hw hr hc =>
    unfold PoolState.submit
    by_cases hs : p.shuttingDown <;> cases loopRunning <;> simp [hs, hp]
  | start c hc hcap =>
    simpa using hcap
  | finish c hc =>
    calc (p.running.erase c).length ≤ p.running.length := by
          rw [List.length_erase_of_mem hc]
          exact Nat.sub_le _ _
      _ ≤ p.maxConcurrent := hp
  | shutdown => exact hp

/-- C8: in every state reachable from a freshly constructed pool with
concurrency limit `n`, at most `n` task bodies run concurrently. -/
theorem pool_concurrency_bounded (n : Nat) (p : PoolState)
    (h : PoolReach (mkPool n) p) : p.running.length ≤ n := by
  have hinv : p.maxConcurrent = n ∧ p.running.length ≤ p.maxConcurrent := by
    induction h with
    | refl => exact ⟨rfl, by simp [mkPool]⟩
    | step hr hs ih =>
      exact
        ⟨by rw [poolStep_maxConcurrent hs]; exact ih.1,
          poolStep_running_bound hs ih.2⟩
  rw [← hinv.1]
  exact hinv.2

/-- Witness for C8: a pool with limit 1 after one submission and one
semaphore acquisition never exceeds one running body. -/
theorem pool_concurrency_bounded_witness :
    (((mkPool 1).submit 7 true).2.running.length ≤ 1) ∧
    ({ ((mkPool 1).submit 7 true).2 with
        waiting := ((mkPool 1).submit 7 true).2.waiting.erase 7,
        running := 7 :: ((mkPool 1).submit 7 true).2.running }).running.length ≤ 1 :=
  ⟨pool_concurrency_bounded 1 _
      (PoolReach.step PoolReach.refl
        (PoolStep.submit (mkPool 1) 7 true (by simp [mkPool]) (by simp [mkPool])
          (by simp [mkPool]))),
    pool_concurrency_bounded 1 _
      (PoolReach.step
        (PoolReach.step PoolReach.refl
          (PoolStep.submit (mkPool 1) 7 true (by simp [mkPool]) (by simp [mkPool])
            (by simp [mkPool])))
        (PoolStep.start _ 7 (by decide) (by decide)))⟩

lemma closed_step {p q : PoolState} (c : Nat) (hs : PoolStep p q)
    (hc : c ∈ p.closed) (hw : c ∉ p.waiting) (hr : c ∉ p.running) :
    c ∈ q.closed ∧ c ∉ q.waiting ∧ c ∉ q.running := by
  cases hs with
  | submit c2 loopRunning hw2 hr2 hc2 =>
    have hne : c ≠ c2 := by
      intro he
      rw [he] at hc
      exact hc2 hc
    unfold PoolState.submit
    by_cases hsd : p.shuttingDown <;> cases loopRunning <;>
      simp_all [List.mem_cons]
  | start c2 hc2 hcap =>
    have hne : c ≠ c2 := by
      intro he
      rw [he] at hw
      exact hw hc2
    exact
      ⟨hc, fun hm => hw (List.mem_of_mem_erase hm),
        by simp [List.mem_cons, hne, hr]⟩
  | finish c2 hc2 =>
    exact ⟨hc, hw, fun hm => hr (List.mem_of_mem_erase hm)⟩
  | shutdown =>
    exact ⟨hc, hw, hr⟩

lemma closed_reach (c : Nat) {p0 q : PoolState} (h : PoolReach p0 q)
    (hc : c ∈ p0.closed) (hw : c ∉ p0.waiting) (hr : c ∉ p0.running) :
    c ∈ q.closed ∧ c ∉ q.waiting ∧ c ∉ q.running := by
  induction h with
  | refl => exact ⟨hc, hw, hr⟩
  | step hreach hs ih =>
    exact closed_step c hs ih.1 ih.2.1 ih.2.2

/-- C9: submitting a fresh coroutine after shutdown has begun — or with no
running event loop — returns "not scheduled" (`None`), leaves the tracked
set unchanged, and the coroutine body never runs in any reachable later
state. -/
theorem submit_rejected_never_runs (p : PoolState) (c : Nat) (loopRunning : Bool)
    (hrej : p.shuttingDown = true ∨ loopRunning = false)
    (hw : c ∉ p.waiting) (hr : c ∉ p.running) (_hcl : c ∉ p.closed) :
    (p.submit c loopRunning).1 = none ∧
    (p.submit c loopRunning).2.waiting = p.waiting ∧
    (p.submit c loopRunning).2.running = p.running ∧
    ∀ q, PoolReach (p.submit c loopRunning).2 q → c ∉ q.running := by
  have hpost :
      (p.submit c loopRunning).2 = { p with closed := c :: p.closed } ∧
      (p.submit c loopRunning).1 = none := by
    rcases hrej with h | h
    · unfold PoolState.submit
      simp [h]
    · unfold PoolState.submit
      by_cases hsd : p.shuttingDown <;> simp [h, hsd]
  obtain ⟨hpost2, hnone⟩ := hpost
  refine ⟨hnone, by rw [hpost2], by rw [hpost2], ?_⟩
  intro q hq
  rw [hpost2] at hq
  exact (closed_reach c hq (List.mem_cons_self c _) hw hr).2.2

/-- Witness for C9: a shutting-down pool rejects a fresh submission and
that coroutine never runs. -/
theorem submit_rejected_never_runs_witness :
    ((PoolState.submit
        { maxConcurrent := 5, shuttingDown := true, waiting := [], running := [],
          closed := [] } 3 true).1 = none) ∧
    ((PoolState.submit
        { maxConcurrent := 5, shuttingDown := true, waiting := [], running := [],
          closed := [] } 3 true).2.waiting = []) ∧
    ((PoolState.submit
        { maxConcurrent := 5, shuttingDown := true, waiting := [], running := [],
          closed := [] } 3 true).2.running = []) ∧
    ∀ q,
      PoolReach
          (PoolState.submit
            { maxConcurrent := 5, shuttingDown := true, waiting := [], running := [],
              closed := [] } 3 true).2 q →
        3 ∉ q.running :=
  submit_rejected_never_runs
    { maxConcurrent := 5, shuttingDown := true, waiting := [], running := [],
      closed := [] }
    3 true (Or.inl rfl) (by decide) (by decide) (by decide)
